import Mathlib

/-!
# CodeTool (Editor.js code block): a shallow embedding of `src/index.js`

The class `CodeTool` is embedded with explicit state passing.  Two pieces of
state exist: the instance (`this`) and the DOM the instance builds its view in.
Every method takes both and gives both back, together with either the value it
returns or the error it throws; a throw keeps the writes made before it.

The JavaScript values the program touches are the ones of `JSVal`; property
reads, truthiness (`||`) and the string conversion applied by DOM attributes
follow ECMAScript and WebIDL.  The DOM side follows the DOM and HTML standards
for the operations the program performs: `createElement`, `classList.add`,
`textContent =`, `placeholder =`, `appendChild`, `querySelector` and the
`value` getter of a `textarea`, plus the edit a user makes in the mounted
surface.  A `textarea` keeps its child text content apart from its raw value:
`textContent =` writes the first and reaches the second only while the dirty
value flag is unset, a user edit writes the second and sets the flag, and
`value` reads the second with newlines normalized.
-/

namespace CodeBlock

/-! ## JavaScript values -/

/-- Errors a method of the program can throw. -/
inductive JSErr where
  | typeError
  | syntaxError
  | invalidCharacterError
  deriving DecidableEq, Repr

/-- The values of the model: `undefined`, `null`, booleans, the numbers that are
safe integers (magnitude below `2^53`, each one an exact double), strings, and
plain data records, as `JSON.parse` makes them: an ordered list of own data
properties over `Object.prototype`.  Fractions, larger numbers, `NaN`, symbols,
arrays, functions and objects with accessors are outside the model. -/
inductive JSVal where
  | undefined
  | null
  | bool (b : Bool)
  | num (n : Int) (safe : n.natAbs < 9007199254740992)
  | str (s : String)
  | obj (fields : List (String × JSVal))

namespace JSVal

/-- Own-property lookup in a record's field list. -/
def lookup (k : String) : List (String × JSVal) → Option JSVal
  | [] => none
  | (k', v) :: rest => if k' = k then some v else lookup k rest

/-- Property read `v.k`: a `TypeError` on `undefined` and `null`, the own
property of a record (or `undefined` when it has none), and `undefined` on the
other primitives.  The names the program reads (`data`, `config`, `api`,
`placeholder`, `styles`, `block`, `input`, `code`, `detail`, `textContent`) are
on no built-in prototype, so nothing is inherited. -/
def get (v : JSVal) (k : String) : Except JSErr JSVal :=
  match v with
  | undefined => .error .typeError
  | null => .error .typeError
  | obj fields => .ok ((lookup k fields).getD undefined)
  | _ => .ok undefined

/-- ECMAScript `ToBoolean`. -/
def truthy : JSVal → Bool
  | undefined => false
  | null => false
  | bool b => b
  | num n _ => decide (n ≠ 0)
  | str s => decide (s ≠ "")
  | obj _ => true

/-- The operator `a || b`. -/
def or (a b : JSVal) : JSVal := if a.truthy then a else b

/-- A record with an own property named `toString`. -/
def hasOwnToString : JSVal → Bool
  | obj fields => (lookup "toString" fields).isSome
  | _ => false

/-- ECMAScript `ToString`, the conversion WebIDL applies for a `DOMString`.  A
safe integer prints as its decimal numeral.  A record goes through
`OrdinaryToPrimitive`: with no own `toString` it inherits
`Object.prototype.toString` and gives `[object Object]`; an own `toString` is a
data value, never callable, and the inherited `valueOf` returns the record
itself, so the conversion throws a `TypeError`. -/
def toDOMString : JSVal → Except JSErr String
  | undefined => .ok "undefined"
  | null => .ok "null"
  | bool true => .ok "true"
  | bool false => .ok "false"
  | num n _ => .ok (toString n)
  | str s => .ok s
  | obj fields =>
    if (obj fields).hasOwnToString then .error .typeError else .ok "[object Object]"

/-- WebIDL conversion for the nullable `DOMString?` of `Node.textContent`:
`undefined` and `null` become IDL null, which the setter treats as the empty
string; any other value is converted as a `DOMString`. -/
def toNullableDOMString : JSVal → Except JSErr String
  | undefined => .ok ""
  | null => .ok ""
  | v => v.toDOMString

end JSVal

/-! ## The DOM -/

/-- Element references: the index of the element in the document's node list. -/
abbrev Ref := Nat

/-- State of an `HTMLTextAreaElement`: its class tokens, its child text content
(what `textContent` reads and writes), the reflected `placeholder` attribute,
and the raw value with its dirty value flag (HTML, the `textarea` element). -/
structure TextArea where
  classList : List String
  childText : String
  placeholder : String
  rawValue : String
  dirty : Bool
  deriving DecidableEq, Repr

/-- A node of the document: a `div` with its class tokens and element children,
or a `textarea`. -/
inductive Node where
  | div (classList : List String) (children : List Ref)
  | textarea (ta : TextArea)
  deriving DecidableEq, Repr

/-- Tag names `document.createElement` is called with. -/
inductive Tag where
  | div
  | textarea
  deriving DecidableEq, Repr

/-- The elements created so far, attached or not. -/
structure Document where
  nodes : List Node
  deriving DecidableEq, Repr

/-- Infra: normalize newlines, on code points.  Every CR LF pair becomes LF and
every remaining CR becomes LF. -/
def normalizeChars : List Char → List Char
  | [] => []
  | [c] => [if c = '\r' then '\n' else c]
  | c :: d :: rest =>
    if c = '\r' ∧ d = '\n' then '\n' :: normalizeChars rest
    else (if c = '\r' then '\n' else c) :: normalizeChars (d :: rest)

/-- Infra: normalize newlines of a string. -/
def normalizeNewlines (s : String) : String := ⟨normalizeChars s.data⟩

/-- Infra: ASCII whitespace is TAB, LF, FF, CR or SPACE. -/
def isAsciiWhitespace (c : Char) : Bool :=
  c = '\t' || c = '\n' || c = Char.ofNat 12 || c = '\r' || c = ' '

/-- The check `DOMTokenList.add` makes on one token: the empty string is a
`SyntaxError`, a token with ASCII whitespace an `InvalidCharacterError`. -/
def validateToken (tok : String) : Except JSErr Unit :=
  if tok = "" then .error .syntaxError
  else if tok.data.any isAsciiWhitespace then .error .invalidCharacterError
  else .ok ()

/-- All tokens are checked, in order, before any is added. -/
def validateTokens : List String → Except JSErr Unit
  | [] => .ok ()
  | tok :: rest =>
    match validateToken tok with
    | .error e => .error e
    | .ok () => validateTokens rest

/-- Appending to an ordered set: a token already present is not added again. -/
def tokenSetAppend (set : List String) (tok : String) : List String :=
  if tok ∈ set then set else set ++ [tok]

namespace Node

/-- The class tokens of an element. -/
def classList : Node → List String
  | div cl _ => cl
  | textarea ta => ta.classList

/-- Replace the class tokens of an element. -/
def setClassList (n : Node) (cl : List String) : Node :=
  match n with
  | div _ kids => div cl kids
  | textarea ta => textarea { ta with classList := cl }

/-- Drop `child` from the element children of a node. -/
def removeChild (child : Ref) : Node → Node
  | div cl kids => div cl (kids.filter (fun r => r != child))
  | textarea ta => textarea ta

end Node

namespace Document

/-- Operation `document.createElement(tag)`: a new, detached element with no
class, no child and, for a `textarea`, an empty raw value and a dirty value flag
that is false. -/
def createElement (d : Document) (tag : Tag) : Ref × Document :=
  let fresh : Node :=
    match tag with
    | .div => .div [] []
    | .textarea => .textarea
        { classList := [], childText := "", placeholder := "", rawValue := "", dirty := false }
  (d.nodes.length, { nodes := d.nodes ++ [fresh] })

/-- Operation `el.classList.add(...tokens)`. -/
def classListAdd (d : Document) (el : Ref) (tokens : List String) :
    Except JSErr Unit × Document :=
  match validateTokens tokens with
  | .error e => (.error e, d)
  | .ok () =>
    match d.nodes[el]? with
    | none => (.ok (), d)
    | some n =>
      (.ok (), { nodes := d.nodes.set el (n.setClassList (tokens.foldl tokenSetAppend n.classList)) })

/-- Rewrite the state of the `textarea` at `el`; any other element, and a
reference to no element, leave the document as it is. -/
def updateTextarea (d : Document) (el : Ref) (f : TextArea → TextArea) : Document :=
  match d.nodes[el]? with
  | some (.textarea ta) => { nodes := d.nodes.set el (.textarea (f ta)) }
  | _ => d

/-- Assignment `el.textContent = text` on a `textarea`: its children are
replaced by the text, and the children changed steps of `textarea` copy the new
child text content into the raw value when the dirty value flag is false. -/
def setTextContent (d : Document) (el : Ref) (text : String) : Document :=
  d.updateTextarea el (fun ta =>
    { ta with childText := text, rawValue := if ta.dirty then ta.rawValue else text })

/-- Assignment `el.placeholder = text` on a `textarea`. -/
def setPlaceholder (d : Document) (el : Ref) (text : String) : Document :=
  d.updateTextarea el (fun ta => { ta with placeholder := text })

/-- Operation `parent.appendChild(child)`: the child leaves the parent it had,
if any, and becomes the last child of `parent`.  Only a `div` takes element
children in this model. -/
def appendChild (d : Document) (parent child : Ref) : Document :=
  let detached := d.nodes.map (Node.removeChild child)
  match detached[parent]? with
  | some (.div cl kids) => { nodes := detached.set parent (.div cl (kids ++ [child])) }
  | _ => { nodes := detached }

/-- Tree-order search below a list of pending elements for the first one with
the given tag; each visited element costs one unit of fuel. -/
def findFirst (d : Document) (tag : Tag) : Nat → List Ref → Option Ref
  | 0, _ => none
  | _ + 1, [] => none
  | fuel + 1, r :: pending =>
    match d.nodes[r]? with
    | none => findFirst d tag fuel pending
    | some (.textarea _) => if tag = .textarea then some r else findFirst d tag fuel pending
    | some (.div _ kids) =>
      if tag = .div then some r else findFirst d tag fuel (kids ++ pending)

/-- Operation `el.querySelector(tag)`: the first descendant of `el`, in tree
order, with that tag, or `null`.  The fuel is the number of elements of the
document, which bounds the number of descendants of any element. -/
def querySelector (d : Document) (el : Ref) (tag : Tag) : Option Ref :=
  match d.nodes[el]? with
  | some (.div _ kids) => findFirst d tag (d.nodes.length + 1) kids
  | _ => none

/-- The `value` getter of a `textarea`: the API value, that is the raw value
with newlines normalized. -/
def value (d : Document) (el : Ref) : Option String :=
  match d.nodes[el]? with
  | some (.textarea ta) => some (normalizeNewlines ta.rawValue)
  | _ => none

/-- The `textContent` getter of a `textarea`: its child text content. -/
def textContent (d : Document) (el : Ref) : Option String :=
  match d.nodes[el]? with
  | some (.textarea ta) => some ta.childText
  | _ => none

/-- The `placeholder` getter of a `textarea`. -/
def placeholder (d : Document) (el : Ref) : Option String :=
  match d.nodes[el]? with
  | some (.textarea ta) => some ta.placeholder
  | _ => none

/-- A user edit in a `textarea`: the raw value becomes the edited text and the
dirty value flag is set.  The children of the element are not touched. -/
def userInput (d : Document) (el : Ref) (text : String) : Document :=
  d.updateTextarea el (fun ta => { ta with rawValue := text, dirty := true })

end Document

/-! ## The class `CodeTool` -/

/-- The record `this.CSS`. -/
structure ClassNames where
  baseClass : JSVal
  input : JSVal
  wrapper : String
  textarea : String

/-- The record `this.nodes`; `none` is `null`. -/
structure Nodes where
  holder : Option Ref
  textarea : Option Ref
  deriving DecidableEq, Repr

/-- The instance: the properties the constructor assigns on `this`. -/
structure CodeTool where
  api : JSVal
  placeholder : JSVal
  CSS : ClassNames
  nodes : Nodes
  _data : JSVal

namespace CodeTool

/-- Static getter `DEFAULT_PLACEHOLDER`. -/
def DEFAULT_PLACEHOLDER : String := "Enter code"

/-- Static getter `enableLineBreaks`. -/
def enableLineBreaks : Bool := true

/-- Static getter `pasteConfig`, as its list of tags. -/
def pasteConfig : List String := ["pre"]

/-- Getter `get data()`. -/
def data (self : CodeTool) : JSVal := self._data

/-- Setter `set data(data)`: the record is stored first; then, when
`this.nodes.textarea` is set, its `textContent` is assigned `data.code`.  The
read `data.code` throws on `undefined` and `null`, and the conversion of the
code to a string can throw, both after the store. -/
def setData (self : CodeTool) (d : Document) (data : JSVal) :
    Except JSErr Unit × CodeTool × Document :=
  let self1 := { self with _data := data }
  match self1.nodes.textarea with
  | none => (.ok (), self1, d)
  | some textarea =>
    match data.get "code" with
    | .error e => (.error e, self1, d)
    | .ok code =>
      match code.toNullableDOMString with
      | .error e => (.error e, self1, d)
      | .ok text => (.ok (), self1, d.setTextContent textarea text)

/-- Method `drawView()`.  Each value handed to the DOM is converted to a string
first, and a conversion that throws ends the method there, with the elements
created so far left detached in the document. -/
def drawView (self : CodeTool) (d : Document) : Except JSErr Ref × CodeTool × Document :=
  let (wrapper, d1) := d.createElement .div
  let (textarea, d2) := d1.createElement .textarea
  match self.CSS.baseClass.toDOMString with
  | .error e => (.error e, self, d2)
  | .ok baseClass =>
  match d2.classListAdd wrapper [baseClass, self.CSS.wrapper] with
  | (.error e, d3) => (.error e, self, d3)
  | (.ok (), d3) =>
  match self.CSS.input.toDOMString with
  | .error e => (.error e, self, d3)
  | .ok input =>
  match d3.classListAdd textarea [self.CSS.textarea, input] with
  | (.error e, d4) => (.error e, self, d4)
  | (.ok (), d4) =>
  match self.data.get "code" with
  | .error e => (.error e, self, d4)
  | .ok code =>
  match code.toNullableDOMString with
  | .error e => (.error e, self, d4)
  | .ok text =>
  let d5 := d4.setTextContent textarea text
  match self.placeholder.toDOMString with
  | .error e => (.error e, self, d5)
  | .ok placeholder =>
  let d6 := d5.setPlaceholder textarea placeholder
  let d7 := d6.appendChild wrapper textarea
  (.ok wrapper, { self with nodes := { self.nodes with textarea := some textarea } }, d7)

/-- The constructor, called as `new CodeTool(arg)` with `arg` destructured as
`{data, config, api}`.  An error means no instance is produced.  The two reads
of `this.api.styles` give the same record, so it is read once. -/
def constructor (arg : JSVal) (d : Document) : Except JSErr CodeTool × Document :=
  match arg.get "data" with
  | .error e => (.error e, d)
  | .ok data =>
  match arg.get "config" with
  | .error e => (.error e, d)
  | .ok config =>
  match arg.get "api" with
  | .error e => (.error e, d)
  | .ok api =>
  match config.get "placeholder" with
  | .error e => (.error e, d)
  | .ok configPlaceholder =>
  let placeholder := configPlaceholder.or (.str DEFAULT_PLACEHOLDER)
  match api.get "styles" with
  | .error e => (.error e, d)
  | .ok styles =>
  match styles.get "block" with
  | .error e => (.error e, d)
  | .ok block =>
  match styles.get "input" with
  | .error e => (.error e, d)
  | .ok input =>
  let css : ClassNames :=
    { baseClass := block, input := input, wrapper := "ce-code",
      textarea := "ce-code__textarea" }
  let self0 : CodeTool :=
    { api := api, placeholder := placeholder, CSS := css,
      nodes := { holder := none, textarea := none }, _data := .undefined }
  match data.get "code" with
  | .error e => (.error e, d)
  | .ok code =>
  match self0.setData d (.obj [("code", code.or (.str ""))]) with
  | (.error e, _, d1) => (.error e, d1)
  | (.ok (), self1, d1) =>
  match self1.drawView d1 with
  | (.error e, _, d2) => (.error e, d2)
  | (.ok holder, self2, d2) =>
    (.ok { self2 with nodes := { self2.nodes with holder := some holder } }, d2)

/-- Method `render()`. -/
def render (self : CodeTool) : Option Ref := self.nodes.holder

/-- Method `save(codeWrapper)`: the `value` of the first `textarea` below
`codeWrapper`, wrapped in a record; a `TypeError` when `querySelector` gives
`null` (or `codeWrapper` is `null`). -/
def save (self : CodeTool) (d : Document) (codeWrapper : Option Ref) :
    Except JSErr JSVal × CodeTool × Document :=
  match codeWrapper with
  | none => (.error .typeError, self, d)
  | some w =>
    match d.querySelector w .textarea with
    | none => (.error .typeError, self, d)
    | some el =>
      match d.value el with
      | none => (.error .typeError, self, d)
      | some v => (.ok (.obj [("code", .str v)]), self, d)

/-- Method `onPaste(event)`. -/
def onPaste (self : CodeTool) (d : Document) (event : JSVal) :
    Except JSErr Unit × CodeTool × Document :=
  match event.get "detail" with
  | .error e => (.error e, self, d)
  | .ok detail =>
    match detail.get "data" with
    | .error e => (.error e, self, d)
    | .ok content =>
      match content.get "textContent" with
      | .error e => (.error e, self, d)
      | .ok text => self.setData d (.obj [("code", text)])

end CodeTool

/-! ## The life of an instance -/

/-- What can happen to a constructed instance: the user edits the mounted
surface, or the host assigns `data`, forwards a paste, or calls `render` or
`save`. -/
inductive Action where
  | userInput (text : String)
  | setData (data : JSVal)
  | onPaste (event : JSVal)
  | render
  | save (codeWrapper : Option Ref)

/-- An action that is a direct user edit. -/
def Action.isUserInput : Action → Bool
  | .userInput _ => true
  | _ => false

/-- One action on the instance and its document.  The value returned, or the
error thrown, goes to the host; the state carries on. -/
def step (w : CodeTool × Document) : Action → CodeTool × Document
  | .userInput text =>
    match w.1.nodes.textarea with
    | some el => (w.1, w.2.userInput el text)
    | none => w
  | .setData data => (w.1.setData w.2 data).2
  | .onPaste event => (w.1.onPaste w.2 event).2
  | .render => w
  | .save codeWrapper => (w.1.save w.2 codeWrapper).2

/-- A sequence of actions, first to last. -/
def run (w : CodeTool × Document) (actions : List Action) : CodeTool × Document :=
  actions.foldl step w

/-- A paste event whose `detail.data.textContent` is `text`. -/
def pasteEvent (text : JSVal) : JSVal :=
  .obj [("detail", .obj [("data", .obj [("textContent", text)])])]

/-- The host's call `tool.save(tool.render())` in the state `w`, keeping what it
returns or throws. -/
def saved (w : CodeTool × Document) : Except JSErr JSVal :=
  (w.1.save w.2 w.1.render).1

/-- The state right after `new CodeTool(arg)` in the document `d`, when the
constructor returns. -/
def constructed (arg : JSVal) (d : Document) : Option (CodeTool × Document) :=
  match CodeTool.constructor arg d with
  | (.ok tool, d0) => some (tool, d0)
  | (.error _, _) => none

/-- The view built at construction is kept: relative to the state `w0` right
after construction, the instance still holds the same element references, the
document has the same elements, every element other than the text surface `el`
is as it was, and the text surface has the classes and placeholder it had. -/
def ViewKept (w0 w : CodeTool × Document) (el : Ref) : Prop :=
  w.1.nodes = w0.1.nodes ∧
  w.2.nodes.length = w0.2.nodes.length ∧
  (∀ r, r ≠ el → w.2.nodes[r]? = w0.2.nodes[r]?) ∧
  ∃ ta ta0, w.2.nodes[el]? = some (.textarea ta) ∧ w0.2.nodes[el]? = some (.textarea ta0) ∧
    ta.classList = ta0.classList ∧ ta.placeholder = ta0.placeholder

/-- The text surface `el` has its dirty value flag unset. -/
def Pristine (w : CodeTool × Document) (el : Ref) : Prop :=
  ∃ ta, w.2.nodes[el]? = some (.textarea ta) ∧ ta.dirty = false

/-- The host's style tokens of the examples below. -/
def hostApi : JSVal :=
  .obj [("styles", .obj [("block", .str "cdx-block"), ("input", .str "cdx-input")])]

/-- The constructor argument `{data, config, api}` with the host's `api`. -/
def hostArg (data config : JSVal) : JSVal :=
  .obj [("data", data), ("config", config), ("api", hostApi)]

/-- The instance `new CodeTool(hostArg data config)` yields in the empty
document, given the record it stores and the placeholder it resolves. -/
def hostTool (data placeholder : JSVal) : CodeTool :=
  { api := hostApi, placeholder := placeholder,
    CSS := { baseClass := .str "cdx-block", input := .str "cdx-input", wrapper := "ce-code",
             textarea := "ce-code__textarea" },
    nodes := { holder := some 0, textarea := some 1 },
    _data := data }

/-- The state of the text surface of `hostTool`. -/
def hostSurface (childText placeholder rawValue : String) (dirty : Bool) : TextArea :=
  { classList := ["ce-code__textarea", "cdx-input"], childText := childText,
    placeholder := placeholder, rawValue := rawValue, dirty := dirty }

/-- The document holding the view of `hostTool` and nothing else. -/
def hostDocument (surface : TextArea) : Document :=
  { nodes := [.div ["cdx-block", "ce-code"] [1], .textarea surface] }

/-! ## Lists of elements -/

theorem getElem?_pair_fst {α : Type} (pre : List α) (a b : α) :
    (pre ++ [a, b])[pre.length]? = some a := by
  rw [List.getElem?_append_right (Nat.le_refl _)]; simp

theorem getElem?_pair_snd {α : Type} (pre : List α) (a b : α) :
    (pre ++ [a, b])[pre.length + 1]? = some b := by
  rw [List.getElem?_append_right (Nat.le_succ _)]; simp

theorem set_pair_fst {α : Type} (pre : List α) (a b x : α) :
    (pre ++ [a, b]).set pre.length x = pre ++ [x, b] := by
  simp [List.set_append]

theorem set_pair_snd {α : Type} (pre : List α) (a b x : α) :
    (pre ++ [a, b]).set (pre.length + 1) x = pre ++ [a, x] := by
  simp [List.set_append]

/-! ## DOM operations -/

namespace Document

theorem updateTextarea_length (d : Document) (el : Ref) (f : TextArea → TextArea) :
    (d.updateTextarea el f).nodes.length = d.nodes.length := by
  unfold updateTextarea
  split <;> simp

theorem updateTextarea_getElem?_self (d : Document) (el : Ref) (f : TextArea → TextArea)
    (ta : TextArea) (h : d.nodes[el]? = some (.textarea ta)) :
    (d.updateTextarea el f).nodes[el]? = some (.textarea (f ta)) := by
  have hlt : el < d.nodes.length := by
    rcases Nat.lt_or_ge el d.nodes.length with h1 | h1
    · exact h1
    · rw [List.getElem?_eq_none h1] at h; cases h
  simp [updateTextarea, h, List.getElem?_set, hlt]

theorem updateTextarea_getElem?_ne (d : Document) (el r : Ref) (f : TextArea → TextArea)
    (h : r ≠ el) : (d.updateTextarea el f).nodes[r]? = d.nodes[r]? := by
  unfold updateTextarea
  split
  · simp [List.getElem?_set, Ne.symm h]
  · rfl

theorem updateTextarea_getElem?_div (d : Document) (el r : Ref) (f : TextArea → TextArea)
    (cl : List String) (kids : List Ref) (h : d.nodes[r]? = some (.div cl kids)) :
    (d.updateTextarea el f).nodes[r]? = some (.div cl kids) := by
  by_cases hr : r = el
  · subst hr
    simp [updateTextarea, h]
  · rw [updateTextarea_getElem?_ne d el r f hr, h]

theorem updateTextarea_pair (pre : List Node) (w : Node) (t : TextArea) (f : TextArea → TextArea) :
    updateTextarea ⟨pre ++ [w, .textarea t]⟩ (pre.length + 1) f = ⟨pre ++ [w, .textarea (f t)]⟩ := by
  simp only [updateTextarea, getElem?_pair_snd, set_pair_snd]

theorem classListAdd_pair_fst (pre : List Node) (a b : Node) (tokens : List String)
    (h : validateTokens tokens = .ok ()) :
    classListAdd ⟨pre ++ [a, b]⟩ pre.length tokens =
      (.ok (), ⟨pre ++ [a.setClassList (tokens.foldl tokenSetAppend a.classList), b]⟩) := by
  simp only [classListAdd, h, getElem?_pair_fst, set_pair_fst]

theorem classListAdd_pair_snd (pre : List Node) (a b : Node) (tokens : List String)
    (h : validateTokens tokens = .ok ()) :
    classListAdd ⟨pre ++ [a, b]⟩ (pre.length + 1) tokens =
      (.ok (), ⟨pre ++ [a, b.setClassList (tokens.foldl tokenSetAppend b.classList)]⟩) := by
  simp only [classListAdd, h, getElem?_pair_snd, set_pair_snd]

theorem classListAdd_error (d : Document) (el : Ref) (tokens : List String) (e : JSErr)
    (h : validateTokens tokens = .error e) :
    classListAdd d el tokens = (.error e, d) := by
  simp [classListAdd, h]

theorem appendChild_pair (pre : List Node) (cl : List String) (t : TextArea) :
    appendChild ⟨pre ++ [.div cl [], .textarea t]⟩ pre.length (pre.length + 1) =
      ⟨pre.map (Node.removeChild (pre.length + 1)) ++ [.div cl [pre.length + 1], .textarea t]⟩ := by
  have h1 := getElem?_pair_fst (pre.map (Node.removeChild (pre.length + 1))) (.div cl [])
    (.textarea t)
  have h2 := set_pair_fst (pre.map (Node.removeChild (pre.length + 1))) (.div cl [])
    (.textarea t) (.div cl [pre.length + 1])
  simp only [List.length_map] at h1 h2
  simp [appendChild, Node.removeChild, h1, h2]

theorem findFirst_textarea (d : Document) (fuel : Nat) (pending : List Ref) (el : Ref)
    (h : findFirst d .textarea fuel pending = some el) :
    ∃ ta, d.nodes[el]? = some (.textarea ta) := by
  induction fuel generalizing pending with
  | zero => simp [findFirst] at h
  | succ n ih =>
    cases pending with
    | nil => simp [findFirst] at h
    | cons r rest =>
      unfold findFirst at h
      split at h
      · exact ih _ h
      · rename_i ta hta
        simp at h
        subst h
        exact ⟨ta, hta⟩
      · simp at h
        exact ih _ h

theorem querySelector_textarea (d : Document) (w el : Ref)
    (h : d.querySelector w .textarea = some el) :
    ∃ ta, d.nodes[el]? = some (.textarea ta) := by
  unfold querySelector at h
  split at h
  · exact findFirst_textarea d _ _ el h
  · cases h

theorem querySelector_holder (d : Document) (w el : Ref) (cl : List String) (ta : TextArea)
    (hw : d.nodes[w]? = some (.div cl [el])) (hel : d.nodes[el]? = some (.textarea ta)) :
    d.querySelector w .textarea = some el := by
  simp [querySelector, hw, findFirst, hel]

end Document

namespace CodeTool

theorem drawView_ok (self : CodeTool) (d : Document) (code : JSVal)
    (baseClass input text placeholder : String)
    (hb : self.CSS.baseClass.toDOMString = .ok baseClass)
    (hi : self.CSS.input.toDOMString = .ok input)
    (hw : validateTokens [baseClass, self.CSS.wrapper] = .ok ())
    (ht : validateTokens [self.CSS.textarea, input] = .ok ())
    (hc : self._data.get "code" = .ok code)
    (hx : code.toNullableDOMString = .ok text)
    (hp : self.placeholder.toDOMString = .ok placeholder) :
    self.drawView d =
      (.ok d.nodes.length,
       { self with nodes := { self.nodes with textarea := some (d.nodes.length + 1) } },
       ⟨d.nodes.map (Node.removeChild (d.nodes.length + 1)) ++
          [.div ([baseClass, self.CSS.wrapper].foldl tokenSetAppend [])
              [d.nodes.length + 1],
           .textarea
            { classList := [self.CSS.textarea, input].foldl tokenSetAppend [],
              childText := text,
              placeholder := placeholder,
              rawValue := text,
              dirty := false }]⟩) := by
  unfold drawView
  simp only [Document.createElement, List.append_assoc, List.singleton_append, List.length_append,
    List.length_singleton, hb, hi]
  rw [Document.classListAdd_pair_fst _ _ _ _ hw]
  simp only []
  rw [Document.classListAdd_pair_snd _ _ _ _ ht]
  simp only [CodeTool.data, hc, hx, hp, Document.setTextContent, Document.setPlaceholder,
    Document.updateTextarea_pair, Node.setClassList, Node.classList,
    Document.appendChild_pair]
  simp

theorem drawView_inv (self : CodeTool) (d : Document) (h : Ref) (self' : CodeTool)
    (d' : Document) (hd : self.drawView d = (.ok h, self', d')) :
    ∃ (code : JSVal) (baseClass input text placeholder : String),
      self.CSS.baseClass.toDOMString = .ok baseClass ∧
      self.CSS.input.toDOMString = .ok input ∧
      validateTokens [baseClass, self.CSS.wrapper] = .ok () ∧
      validateTokens [self.CSS.textarea, input] = .ok () ∧
      self._data.get "code" = .ok code ∧
      code.toNullableDOMString = .ok text ∧
      self.placeholder.toDOMString = .ok placeholder := by
  unfold drawView at hd
  simp only [Document.createElement, List.append_assoc, List.singleton_append, List.length_append,
    List.length_singleton] at hd
  cases hb : self.CSS.baseClass.toDOMString with
  | error e => simp [hb] at hd
  | ok baseClass =>
  simp only [hb] at hd
  cases hw : validateTokens [baseClass, self.CSS.wrapper] with
  | error e =>
    rw [Document.classListAdd_error _ _ _ _ hw] at hd
    simp at hd
  | ok u =>
  cases u
  rw [Document.classListAdd_pair_fst _ _ _ _ hw] at hd
  simp only [] at hd
  cases hi : self.CSS.input.toDOMString with
  | error e => simp [hi] at hd
  | ok input =>
  simp only [hi] at hd
  cases ht : validateTokens [self.CSS.textarea, input] with
  | error e =>
    rw [Document.classListAdd_error _ _ _ _ ht] at hd
    simp at hd
  | ok u =>
  cases u
  rw [Document.classListAdd_pair_snd _ _ _ _ ht] at hd
  simp only [CodeTool.data] at hd
  cases hc : self._data.get "code" with
  | error e => simp [hc] at hd
  | ok code =>
  simp only [hc] at hd
  cases hx : code.toNullableDOMString with
  | error e => simp [hx] at hd
  | ok text =>
  simp only [hx] at hd
  cases hp : self.placeholder.toDOMString with
  | error e => simp [hp] at hd
  | ok placeholder =>
  exact ⟨code, baseClass, input, text, placeholder, rfl, rfl, hw, ht, rfl, hx, rfl⟩

theorem get_code_record (v : JSVal) : (JSVal.obj [("code", v)]).get "code" = .ok v := by
  simp [JSVal.get, JSVal.lookup]

theorem constructor_ok (arg data config api ph styles block input code : JSVal)
    (baseClass inputClass text placeholder : String) (d : Document)
    (h1 : arg.get "data" = .ok data) (h2 : arg.get "config" = .ok config)
    (h3 : arg.get "api" = .ok api) (h4 : config.get "placeholder" = .ok ph)
    (h5 : api.get "styles" = .ok styles) (h6 : styles.get "block" = .ok block)
    (h7 : styles.get "input" = .ok input) (h8 : data.get "code" = .ok code)
    (hb : block.toDOMString = .ok baseClass) (hi : input.toDOMString = .ok inputClass)
    (hw : validateTokens [baseClass, "ce-code"] = .ok ())
    (ht : validateTokens ["ce-code__textarea", inputClass] = .ok ())
    (hx : (code.or (.str "")).toNullableDOMString = .ok text)
    (hp : (ph.or (.str DEFAULT_PLACEHOLDER)).toDOMString = .ok placeholder) :
    CodeTool.constructor arg d =
      (.ok
        { api := api, placeholder := ph.or (.str DEFAULT_PLACEHOLDER),
          CSS := { baseClass := block, input := input, wrapper := "ce-code",
                   textarea := "ce-code__textarea" },
          nodes := { holder := some d.nodes.length, textarea := some (d.nodes.length + 1) },
          _data := .obj [("code", code.or (.str ""))] },
       ⟨d.nodes.map (Node.removeChild (d.nodes.length + 1)) ++
          [.div ([baseClass, "ce-code"].foldl tokenSetAppend []) [d.nodes.length + 1],
           .textarea
            { classList := ["ce-code__textarea", inputClass].foldl tokenSetAppend [],
              childText := text,
              placeholder := placeholder,
              rawValue := text,
              dirty := false }]⟩) := by
  unfold CodeTool.constructor
  simp only [h1, h2, h3, h4, h5, h6, h7, h8, setData]
  rw [drawView_ok _ _ (code.or (.str "")) baseClass inputClass text placeholder hb hi hw ht
    (get_code_record _) hx hp]

theorem constructor_inv (arg : JSVal) (d : Document) (tool : CodeTool) (d' : Document)
    (h : CodeTool.constructor arg d = (.ok tool, d')) :
    ∃ (data config api ph styles block input code : JSVal)
      (baseClass inputClass text placeholder : String),
      arg.get "data" = .ok data ∧ arg.get "config" = .ok config ∧
      arg.get "api" = .ok api ∧ config.get "placeholder" = .ok ph ∧
      api.get "styles" = .ok styles ∧ styles.get "block" = .ok block ∧
      styles.get "input" = .ok input ∧ data.get "code" = .ok code ∧
      block.toDOMString = .ok baseClass ∧ input.toDOMString = .ok inputClass ∧
      validateTokens [baseClass, "ce-code"] = .ok () ∧
      validateTokens ["ce-code__textarea", inputClass] = .ok () ∧
      (code.or (.str "")).toNullableDOMString = .ok text ∧
      (ph.or (.str DEFAULT_PLACEHOLDER)).toDOMString = .ok placeholder := by
  unfold CodeTool.constructor at h
  cases h1 : arg.get "data" with
  | error e => simp [h1] at h
  | ok data =>
  cases h2 : arg.get "config" with
  | error e => simp [h1, h2] at h
  | ok config =>
  cases h3 : arg.get "api" with
  | error e => simp [h1, h2, h3] at h
  | ok api =>
  cases h4 : config.get "placeholder" with
  | error e => simp [h1, h2, h3, h4] at h
  | ok ph =>
  cases h5 : api.get "styles" with
  | error e => simp [h1, h2, h3, h4, h5] at h
  | ok styles =>
  cases h6 : styles.get "block" with
  | error e => simp [h1, h2, h3, h4, h5, h6] at h
  | ok block =>
  cases h7 : styles.get "input" with
  | error e => simp [h1, h2, h3, h4, h5, h6, h7] at h
  | ok input =>
  cases h8 : data.get "code" with
  | error e => simp [h1, h2, h3, h4, h5, h6, h7, h8] at h
  | ok code =>
  simp only [h1, h2, h3, h4, h5, h6, h7, h8, setData] at h
  split at h
  · simp at h
  · rename_i holder self2 d2 hdv
    obtain ⟨code', baseClass, inputClass, text, placeholder, hb, hi, hw, ht, hc, hx, hp⟩ :=
      drawView_inv _ _ _ _ _ hdv
    simp only [get_code_record, Except.ok.injEq] at hc
    subst hc
    exact ⟨data, config, api, ph, styles, block, input, code, baseClass, inputClass, text,
      placeholder, rfl, rfl, rfl, h4, h5, h6, h7, h8, hb, hi, hw, ht, hx, hp⟩

end CodeTool

theorem setData_ok (t : CodeTool) (d : Document) (data code : JSVal) (text : String) (el : Ref)
    (hel : t.nodes.textarea = some el) (hc : data.get "code" = .ok code)
    (hx : code.toNullableDOMString = .ok text) :
    t.setData d data = (.ok (), { t with _data := data }, d.setTextContent el text) := by
  simp only [CodeTool.setData, hel, hc, hx]

theorem setData_throw (t : CodeTool) (d : Document) (data code : JSVal) (e : JSErr) (el : Ref)
    (hel : t.nodes.textarea = some el) (hc : data.get "code" = .ok code)
    (hx : code.toNullableDOMString = .error e) :
    t.setData d data = (.error e, { t with _data := data }, d) := by
  simp only [CodeTool.setData, hel, hc, hx]

theorem setData_error (t : CodeTool) (d : Document) (data : JSVal) (e : JSErr) (el : Ref)
    (hel : t.nodes.textarea = some el) (hc : data.get "code" = .error e) :
    t.setData d data = (.error e, { t with _data := data }, d) := by
  simp only [CodeTool.setData, hel, hc]

theorem onPaste_ok (t : CodeTool) (d : Document) (event detail content text : JSVal)
    (h1 : event.get "detail" = .ok detail) (h2 : detail.get "data" = .ok content)
    (h3 : content.get "textContent" = .ok text) :
    t.onPaste d event = t.setData d (.obj [("code", text)]) := by
  simp only [CodeTool.onPaste, h1, h2, h3]

theorem onPaste_error (t : CodeTool) (d : Document) (event : JSVal)
    (h : ∀ detail content text, event.get "detail" = .ok detail →
      detail.get "data" = .ok content → content.get "textContent" ≠ .ok text) :
    ∃ e, t.onPaste d event = (.error e, t, d) := by
  unfold CodeTool.onPaste
  cases h1 : event.get "detail" with
  | error e => exact ⟨e, rfl⟩
  | ok detail =>
    simp only
    cases h2 : detail.get "data" with
    | error e => exact ⟨e, rfl⟩
    | ok content =>
      simp only
      cases h3 : content.get "textContent" with
      | error e => exact ⟨e, rfl⟩
      | ok text => exact absurd h3 (h detail content text h1 h2)

theorem save_snd (t : CodeTool) (d : Document) (cw : Option Ref) : (t.save d cw).2 = (t, d) := by
  unfold CodeTool.save
  cases cw with
  | none => rfl
  | some r =>
    simp only
    cases d.querySelector r .textarea with
    | none => rfl
    | some x =>
      simp only
      cases d.value x with
      | none => rfl
      | some v => rfl

theorem step_spec (w : CodeTool × Document) (a : Action) (el : Ref)
    (hel : w.1.nodes.textarea = some el) :
    (step w a).1.nodes = w.1.nodes ∧
    ((step w a).2 = w.2 ∨
      ∃ f : TextArea → TextArea,
        (∀ ta, (f ta).classList = ta.classList ∧ (f ta).placeholder = ta.placeholder ∧
          (a.isUserInput = false → (f ta).dirty = ta.dirty)) ∧
        (step w a).2 = w.2.updateTextarea el f) := by
  obtain ⟨t, d⟩ := w
  simp only at hel
  have key : ∀ data : JSVal,
      (t.setData d data).2.1.nodes = t.nodes ∧
      ((t.setData d data).2.2 = d ∨
        ∃ f : TextArea → TextArea,
          (∀ ta, (f ta).classList = ta.classList ∧ (f ta).placeholder = ta.placeholder ∧
            (f ta).dirty = ta.dirty) ∧
          (t.setData d data).2.2 = d.updateTextarea el f) := by
    intro data
    cases hc : data.get "code" with
    | error e =>
      rw [setData_error t d data e el hel hc]
      exact ⟨rfl, Or.inl rfl⟩
    | ok code =>
      cases hx : code.toNullableDOMString with
      | error e =>
        rw [setData_throw t d data code e el hel hc hx]
        exact ⟨rfl, Or.inl rfl⟩
      | ok text =>
        rw [setData_ok t d data code text el hel hc hx]
        refine ⟨rfl, Or.inr ⟨_, ?_, rfl⟩⟩
        intro ta
        exact ⟨rfl, rfl, rfl⟩
  cases a with
  | userInput text =>
    simp only [step, hel, Document.userInput, true_and]
    refine Or.inr ⟨_, ?_, rfl⟩
    intro ta
    exact ⟨rfl, rfl, by simp [Action.isUserInput]⟩
  | setData data =>
    obtain ⟨k1, k2⟩ := key data
    refine ⟨k1, ?_⟩
    rcases k2 with k2 | ⟨f, hf, k2⟩
    · exact Or.inl k2
    · exact Or.inr ⟨f, fun ta => ⟨(hf ta).1, (hf ta).2.1, fun _ => (hf ta).2.2⟩, k2⟩
  | onPaste event =>
    simp only [step]
    by_cases h : ∃ detail content text, event.get "detail" = .ok detail ∧
        detail.get "data" = .ok content ∧ content.get "textContent" = .ok text
    · obtain ⟨detail, content, text, h1, h2, h3⟩ := h
      rw [onPaste_ok t d event detail content text h1 h2 h3]
      obtain ⟨k1, k2⟩ := key (.obj [("code", text)])
      refine ⟨k1, ?_⟩
      rcases k2 with k2 | ⟨f, hf, k2⟩
      · exact Or.inl k2
      · exact Or.inr ⟨f, fun ta => ⟨(hf ta).1, (hf ta).2.1, fun _ => (hf ta).2.2⟩, k2⟩
    · obtain ⟨e, he⟩ := onPaste_error t d event (by
        intro detail content text h1 h2 h3
        exact h ⟨detail, content, text, h1, h2, h3⟩)
      rw [he]
      exact ⟨rfl, Or.inl rfl⟩
  | render => exact ⟨rfl, Or.inl rfl⟩
  | save cw =>
    simp [step, save_snd]

theorem viewKept_step (w0 w : CodeTool × Document) (a : Action) (el : Ref)
    (h0 : w0.1.nodes.textarea = some el) (h : ViewKept w0 w el) :
    ViewKept w0 (step w a) el := by
  obtain ⟨hn, hl, ho, ta, ta0, hta, hta0, hcl, hph⟩ := h
  have hel : w.1.nodes.textarea = some el := by rw [hn]; exact h0
  obtain ⟨hs1, hs2⟩ := step_spec w a el hel
  rcases hs2 with hs2 | ⟨f, hf, hs2⟩
  · exact ⟨hs1.trans hn, by rw [hs2]; exact hl, by rw [hs2]; exact ho,
      ta, ta0, by rw [hs2]; exact hta, hta0, hcl, hph⟩
  · refine ⟨hs1.trans hn, ?_, ?_, f ta, ta0, ?_, hta0, ?_, ?_⟩
    · rw [hs2, Document.updateTextarea_length]; exact hl
    · intro r hr
      rw [hs2, Document.updateTextarea_getElem?_ne _ _ _ _ hr]; exact ho r hr
    · rw [hs2]; exact Document.updateTextarea_getElem?_self _ _ _ _ hta
    · rw [(hf ta).1]; exact hcl
    · rw [(hf ta).2.1]; exact hph

theorem viewKept_run (w0 : CodeTool × Document) (actions : List Action) (el : Ref)
    (h0 : w0.1.nodes.textarea = some el) (w : CodeTool × Document) (h : ViewKept w0 w el) :
    ViewKept w0 (run w actions) el := by
  induction actions generalizing w with
  | nil => exact h
  | cons a rest ih => exact ih (step w a) (viewKept_step w0 w a el h0 h)

theorem pristine_step (w : CodeTool × Document) (a : Action) (el : Ref)
    (hel : w.1.nodes.textarea = some el) (ha : a.isUserInput = false) (h : Pristine w el) :
    Pristine (step w a) el := by
  obtain ⟨ta, hta, hd⟩ := h
  obtain ⟨_, hs2⟩ := step_spec w a el hel
  rcases hs2 with hs2 | ⟨f, hf, hs2⟩
  · exact ⟨ta, by rw [hs2]; exact hta, hd⟩
  · refine ⟨f ta, ?_, ?_⟩
    · rw [hs2]; exact Document.updateTextarea_getElem?_self _ _ _ _ hta
    · rw [(hf ta).2.2 ha]; exact hd

theorem pristine_run (actions : List Action) (el : Ref) (w : CodeTool × Document)
    (hel : w.1.nodes.textarea = some el)
    (ha : ∀ a ∈ actions, a.isUserInput = false) (h : Pristine w el) :
    Pristine (run w actions) el := by
  induction actions generalizing w with
  | nil => exact h
  | cons a rest ih =>
    have ha1 : a.isUserInput = false := ha a (List.mem_cons_self _ _)
    have hel1 : (step w a).1.nodes.textarea = some el := by
      rw [(step_spec w a el hel).1]; exact hel
    exact ih (step w a) hel1 (fun b hb => ha b (List.mem_cons_of_mem _ hb))
      (pristine_step w a el hel ha1 h)

theorem normalizeChars_of_no_cr (cs : List Char) (h : '\r' ∉ cs) : normalizeChars cs = cs := by
  induction cs with
  | nil => rfl
  | cons c rest ih =>
    have hc : c ≠ '\r' := fun e => h (by simp [e])
    have hrest : '\r' ∉ rest := fun e => h (List.mem_cons_of_mem _ e)
    cases rest with
    | nil => simp [normalizeChars, hc]
    | cons e rest2 =>
      simp only [normalizeChars, hc, false_and, if_false]
      rw [ih hrest]

theorem normalizeNewlines_of_no_cr (s : String) (h : '\r' ∉ s.data) : normalizeNewlines s = s := by
  unfold normalizeNewlines
  rw [normalizeChars_of_no_cr _ h]

namespace CodeTool

theorem save_mounted (t : CodeTool) (d : Document) (h el : Ref) (cl : List String)
    (ta : TextArea) (hh : d.nodes[h]? = some (.div cl [el]))
    (hel : d.nodes[el]? = some (.textarea ta)) :
    t.save d (some h) = (.ok (.obj [("code", .str (normalizeNewlines ta.rawValue))]), t, d) := by
  simp only [save, Document.querySelector_holder d h el cl ta hh hel, Document.value, hel]

theorem constructor_eq (arg : JSVal) (d : Document) (tool : CodeTool) (d0 : Document)
    (h : CodeTool.constructor arg d = (.ok tool, d0)) :
    ∃ (data config api ph styles block input code : JSVal)
      (baseClass inputClass text placeholder : String),
      arg.get "data" = .ok data ∧ arg.get "config" = .ok config ∧
      arg.get "api" = .ok api ∧ config.get "placeholder" = .ok ph ∧
      api.get "styles" = .ok styles ∧ styles.get "block" = .ok block ∧
      styles.get "input" = .ok input ∧ data.get "code" = .ok code ∧
      (code.or (.str "")).toNullableDOMString = .ok text ∧
      (ph.or (.str DEFAULT_PLACEHOLDER)).toDOMString = .ok placeholder ∧
      tool =
        { api := api, placeholder := ph.or (.str DEFAULT_PLACEHOLDER),
          CSS := { baseClass := block, input := input, wrapper := "ce-code",
                   textarea := "ce-code__textarea" },
          nodes := { holder := some d.nodes.length, textarea := some (d.nodes.length + 1) },
          _data := .obj [("code", code.or (.str ""))] } ∧
      d0 =
        ⟨d.nodes.map (Node.removeChild (d.nodes.length + 1)) ++
          [.div ([baseClass, "ce-code"].foldl tokenSetAppend []) [d.nodes.length + 1],
           .textarea
            { classList := ["ce-code__textarea", inputClass].foldl tokenSetAppend [],
              childText := text,
              placeholder := placeholder,
              rawValue := text,
              dirty := false }]⟩ := by
  obtain ⟨data, config, api, ph, styles, block, input, code, baseClass, inputClass, text,
    placeholder, h1, h2, h3, h4, h5, h6, h7, h8, hb, hi, hw, ht, hx, hp⟩ :=
    constructor_inv arg d tool d0 h
  rw [constructor_ok arg data config api ph styles block input code baseClass inputClass text
    placeholder d h1 h2 h3 h4 h5 h6 h7 h8 hb hi hw ht hx hp] at h
  simp only [Prod.mk.injEq, Except.ok.injEq] at h
  exact ⟨data, config, api, ph, styles, block, input, code, baseClass, inputClass, text,
    placeholder, h1, h2, h3, h4, h5, h6, h7, h8, hx, hp, h.1.symm, h.2.symm⟩

/-- Right after construction the holder is a `div` whose only child is the text
surface, and the text surface holds the stored code, not yet edited. -/
theorem constructor_mounted (arg : JSVal) (d : Document) (tool : CodeTool) (d0 : Document)
    (h : CodeTool.constructor arg d = (.ok tool, d0)) :
    ∃ (data config ph code : JSVal) (cl tcl : List String) (text placeholder : String),
      arg.get "data" = .ok data ∧ arg.get "config" = .ok config ∧
      config.get "placeholder" = .ok ph ∧ data.get "code" = .ok code ∧
      (code.or (.str "")).toNullableDOMString = .ok text ∧
      (ph.or (.str DEFAULT_PLACEHOLDER)).toDOMString = .ok placeholder ∧
      tool.nodes = { holder := some d.nodes.length, textarea := some (d.nodes.length + 1) } ∧
      tool._data = .obj [("code", code.or (.str ""))] ∧
      tool.placeholder = ph.or (.str DEFAULT_PLACEHOLDER) ∧
      d0.nodes.length = d.nodes.length + 2 ∧
      d0.nodes[d.nodes.length]? = some (.div cl [d.nodes.length + 1]) ∧
      d0.nodes[d.nodes.length + 1]? = some (.textarea
        { classList := tcl,
          childText := text,
          placeholder := placeholder,
          rawValue := text,
          dirty := false }) := by
  obtain ⟨data, config, api, ph, styles, block, input, code, baseClass, inputClass, text,
    placeholder, h1, h2, h3, h4, h5, h6, h7, h8, hx, hp, ht, hd⟩ :=
    constructor_eq arg d tool d0 h
  have e1 := getElem?_pair_fst (d.nodes.map (Node.removeChild (d.nodes.length + 1)))
    (.div ([baseClass, "ce-code"].foldl tokenSetAppend []) [d.nodes.length + 1])
    (.textarea
      { classList := ["ce-code__textarea", inputClass].foldl tokenSetAppend [],
        childText := text, placeholder := placeholder, rawValue := text, dirty := false })
  have e2 := getElem?_pair_snd (d.nodes.map (Node.removeChild (d.nodes.length + 1)))
    (.div ([baseClass, "ce-code"].foldl tokenSetAppend []) [d.nodes.length + 1])
    (.textarea
      { classList := ["ce-code__textarea", inputClass].foldl tokenSetAppend [],
        childText := text, placeholder := placeholder, rawValue := text, dirty := false })
  simp only [List.length_map] at e1 e2
  refine ⟨data, config, ph, code,
    [baseClass, "ce-code"].foldl tokenSetAppend [],
    ["ce-code__textarea", inputClass].foldl tokenSetAppend [], text, placeholder,
    h1, h2, h4, h8, hx, hp, ?_, ?_, ?_, ?_, ?_, ?_⟩
  · rw [ht]
  · rw [ht]
  · rw [ht]
  · rw [hd]; simp
  · rw [hd]; exact e1
  · rw [hd]; exact e2

end CodeTool

theorem viewKept_refl (w : CodeTool × Document) (el : Ref) (ta : TextArea)
    (h : w.2.nodes[el]? = some (.textarea ta)) : ViewKept w w el :=
  ⟨rfl, rfl, fun _ _ => rfl, ta, ta, h, h, rfl, rfl⟩

/-- In every state reached from a construction the instance holds the two
references made by `drawView`, the holder has the text surface as its only
child and the text surface is a `textarea`. -/
theorem run_mounted (arg : JSVal) (d : Document) (tool : CodeTool) (d0 : Document)
    (actions : List Action) (h : CodeTool.constructor arg d = (.ok tool, d0)) :
    (run (tool, d0) actions).1.nodes =
      { holder := some d.nodes.length, textarea := some (d.nodes.length + 1) } ∧
    (∃ cl, (run (tool, d0) actions).2.nodes[d.nodes.length]? =
      some (.div cl [d.nodes.length + 1])) ∧
    ∃ ta, (run (tool, d0) actions).2.nodes[d.nodes.length + 1]? = some (.textarea ta) := by
  obtain ⟨data, config, ph, code, cl, tcl, text, placeholder, -, -, -, -, -, -, hn, -, -, -,
    hw, ht⟩ := CodeTool.constructor_mounted arg d tool d0 h
  have h0 : (tool, d0).1.nodes.textarea = some (d.nodes.length + 1) := by
    simp only [hn]
  obtain ⟨k1, -, k3, ta, ta0, k4, -, -, -⟩ :=
    viewKept_run (tool, d0) actions (d.nodes.length + 1) h0 (tool, d0)
      (viewKept_refl (tool, d0) _ _ ht)
  refine ⟨k1.trans hn, ⟨cl, ?_⟩, ta, k4⟩
  rw [k3 d.nodes.length (Nat.ne_of_lt (Nat.lt_succ_self _))]
  exact hw

theorem toNullableDOMString_or_str (c : String) :
    ((JSVal.str c).or (.str "")).toNullableDOMString = .ok c := by
  by_cases hc : c = ""
  · subst hc; rfl
  · simp [JSVal.or, JSVal.truthy, hc, JSVal.toNullableDOMString, JSVal.toDOMString]

/-- Assigning a record `{code: v}`, with `v` convertible to the string `text`,
in a state where the instance holds its text surface: the record is stored, the
child text of the surface becomes `text`, and so does the raw value unless the
surface has been edited. -/
theorem setData_code (t : CodeTool) (d : Document) (v : JSVal) (text : String) (el : Ref)
    (ta : TextArea) (hel : t.nodes.textarea = some el)
    (hta : d.nodes[el]? = some (.textarea ta)) (hv : v.toNullableDOMString = .ok text) :
    t.setData d (.obj [("code", v)]) =
      (.ok (), { t with _data := .obj [("code", v)] }, d.setTextContent el text) ∧
    (d.setTextContent el text).nodes[el]? = some (.textarea
      { ta with childText := text,
                rawValue := if ta.dirty then ta.rawValue else text }) :=
  ⟨setData_ok t d _ v text el hel (CodeTool.get_code_record v) hv,
   Document.updateTextarea_getElem?_self d el _ ta hta⟩

/-! ## The claims -/

/-- C1, as amended.  Constructing with a string `c` as `data.code` and calling
`save(render())` at once returns the record whose `code` is `c` with newlines
normalized (every CR LF pair and every other CR replaced by LF), and changes
neither the instance nor the document; the record equals `{code: c}` whenever
`c` has no carriage return. -/
theorem C1_roundtrip_newlines_normalized (arg data : JSVal) (c : String) (d : Document)
    (tool : CodeTool) (d0 : Document)
    (hdata : arg.get "data" = .ok data) (hcode : data.get "code" = .ok (.str c))
    (hnew : CodeTool.constructor arg d = (.ok tool, d0)) :
    tool.save d0 tool.render =
      (.ok (.obj [("code", .str (normalizeNewlines c))]), tool, d0) ∧
    ('\r' ∉ c.data → tool.save d0 tool.render = (.ok (.obj [("code", .str c)]), tool, d0)) := by
  obtain ⟨data', config, ph, code, cl, tcl, text, placeholder, h1, -, -, h8, hx, -, hn, -, -,
    -, hw, ht⟩ := CodeTool.constructor_mounted arg d tool d0 hnew
  rw [hdata] at h1
  cases h1
  rw [hcode] at h8
  cases h8
  rw [toNullableDOMString_or_str] at hx
  cases hx
  have hr : tool.render = some d.nodes.length := by simp only [CodeTool.render, hn]
  have hs := CodeTool.save_mounted tool d0 _ _ _ _ hw ht
  simp only at hs
  rw [hr]
  refine ⟨hs, fun hcr => ?_⟩
  rw [hs, normalizeNewlines_of_no_cr c hcr]

/-- C1 at the two-line code `a LF b`: the construction succeeds and
`save(render())` returns the record it was given. -/
theorem C1_roundtrip_newlines_normalized_witness :
    (hostArg (.obj [("code", .str "a\nb")]) (.obj [])).get "data" =
      .ok (.obj [("code", .str "a\nb")]) ∧
    (JSVal.obj [("code", .str "a\nb")]).get "code" = .ok (.str "a\nb") ∧
    CodeTool.constructor (hostArg (.obj [("code", .str "a\nb")]) (.obj [])) ⟨[]⟩ =
      (.ok (hostTool (.obj [("code", .str "a\nb")]) (.str "Enter code")),
       hostDocument (hostSurface "a\nb" "Enter code" "a\nb" false)) ∧
    (hostTool (.obj [("code", .str "a\nb")]) (.str "Enter code")).save
        (hostDocument (hostSurface "a\nb" "Enter code" "a\nb" false))
        (hostTool (.obj [("code", .str "a\nb")]) (.str "Enter code")).render =
      (.ok (.obj [("code", .str "a\nb")]),
       hostTool (.obj [("code", .str "a\nb")]) (.str "Enter code"),
       hostDocument (hostSurface "a\nb" "Enter code" "a\nb" false)) :=
  ⟨rfl, rfl, rfl,
   (C1_roundtrip_newlines_normalized (hostArg (.obj [("code", .str "a\nb")]) (.obj []))
      (.obj [("code", .str "a\nb")]) "a\nb" ⟨[]⟩
      (hostTool (.obj [("code", .str "a\nb")]) (.str "Enter code"))
      (hostDocument (hostSurface "a\nb" "Enter code" "a\nb" false)) rfl rfl rfl).2
      (by decide)⟩

/-- C1 as stated fails: with the two-line code `a CR LF b`, construction
succeeds and `save(render())` returns `a LF b`, a record that differs from the
input. -/
theorem C1_counterexample :
    CodeTool.constructor (hostArg (.obj [("code", .str "a\r\nb")]) (.obj [])) ⟨[]⟩ =
      (.ok (hostTool (.obj [("code", .str "a\r\nb")]) (.str "Enter code")),
       hostDocument (hostSurface "a\r\nb" "Enter code" "a\r\nb" false)) ∧
    saved (hostTool (.obj [("code", .str "a\r\nb")]) (.str "Enter code"),
        hostDocument (hostSurface "a\r\nb" "Enter code" "a\r\nb" false)) =
      .ok (.obj [("code", .str "a\nb")]) ∧
    saved (hostTool (.obj [("code", .str "a\r\nb")]) (.str "Enter code"),
        hostDocument (hostSurface "a\r\nb" "Enter code" "a\r\nb" false)) ≠
      .ok (.obj [("code", .str "a\r\nb")]) := by
  refine ⟨rfl, rfl, ?_⟩
  intro h
  have h2 : saved (hostTool (.obj [("code", .str "a\r\nb")]) (.str "Enter code"),
        hostDocument (hostSurface "a\r\nb" "Enter code" "a\r\nb" false)) =
      .ok (.obj [("code", .str "a\nb")]) := rfl
  rw [h2] at h
  simp at h

/-- What `save(render())` returns in a state where the holder `h` of the
instance is a `div` with the text surface as its only child. -/
theorem saved_mounted (w : CodeTool × Document) (h el : Ref) (cl : List String) (ta : TextArea)
    (hh : w.1.nodes.holder = some h) (hw : w.2.nodes[h]? = some (.div cl [el]))
    (hel : w.2.nodes[el]? = some (.textarea ta)) :
    w.1.save w.2 w.1.render =
      (.ok (.obj [("code", .str (normalizeNewlines ta.rawValue))]), w.1, w.2) := by
  have hr : w.1.render = some h := hh
  rw [hr]
  exact CodeTool.save_mounted w.1 w.2 h el cl ta hw hel

/-- Right after construction the text surface has not been edited. -/
theorem constructor_pristine (arg : JSVal) (d : Document) (tool : CodeTool) (d0 : Document)
    (h : CodeTool.constructor arg d = (.ok tool, d0)) :
    Pristine (tool, d0) (d.nodes.length + 1) := by
  obtain ⟨data', config, ph, code, cl, tcl, text, placeholder, -, -, -, -, -, -, -, -, -, -,
    -, ht⟩ := CodeTool.constructor_mounted arg d tool d0 h
  exact ⟨_, ht, rfl⟩

/-- The state after assigning `{code: v}`, with `v` convertible to the string
`text`, in a state reached from a construction, and what `save(render())`
returns there when no user edit came before the assignment. -/
theorem write_then_save (arg : JSVal) (d : Document) (tool : CodeTool) (d0 : Document)
    (actions : List Action) (v : JSVal) (text : String)
    (hnew : CodeTool.constructor arg d = (.ok tool, d0))
    (hv : v.toNullableDOMString = .ok text) :
    (run (tool, d0) actions).1.setData (run (tool, d0) actions).2 (.obj [("code", v)]) =
      (.ok (), { (run (tool, d0) actions).1 with _data := .obj [("code", v)] },
        (run (tool, d0) actions).2.setTextContent (d.nodes.length + 1) text) ∧
    ((run (tool, d0) actions).2.setTextContent (d.nodes.length + 1)
      text).textContent (d.nodes.length + 1) = some text ∧
    ((∀ a ∈ actions, a.isUserInput = false) →
      saved ({ (run (tool, d0) actions).1 with _data := .obj [("code", v)] },
        (run (tool, d0) actions).2.setTextContent (d.nodes.length + 1) text) =
        .ok (.obj [("code", .str (normalizeNewlines text))])) := by
  obtain ⟨hn, ⟨cl, hw⟩, ta, hta⟩ := run_mounted arg d tool d0 actions hnew
  have hel : (run (tool, d0) actions).1.nodes.textarea = some (d.nodes.length + 1) := by
    simp only [hn]
  obtain ⟨e1, e2⟩ := setData_code (run (tool, d0) actions).1 (run (tool, d0) actions).2
    v text _ _ hel hta hv
  refine ⟨e1, ?_, fun hno => ?_⟩
  · simp only [Document.textContent, e2]
  · obtain ⟨ta', hta', hd⟩ := pristine_run actions (d.nodes.length + 1) (tool, d0)
      (by
        obtain ⟨data', config, ph, code, cl0, tcl, text0, placeholder, -, -, -, -, -, -, hn0,
          -⟩ := CodeTool.constructor_mounted arg d tool d0 hnew
        simp only [hn0])
      hno (constructor_pristine arg d tool d0 hnew)
    rw [hta] at hta'
    cases hta'
    have hw' := Document.updateTextarea_getElem?_div (run (tool, d0) actions).2
      (d.nodes.length + 1) d.nodes.length
      (fun ta => { ta with childText := text,
                           rawValue := if ta.dirty then ta.rawValue else text }) cl _ hw
    have hs := saved_mounted
      ({ (run (tool, d0) actions).1 with _data := .obj [("code", v)] },
        (run (tool, d0) actions).2.setTextContent (d.nodes.length + 1) text)
      d.nodes.length (d.nodes.length + 1) cl _ (by simp only [hn]) hw' e2
    unfold saved
    rw [hs]
    simp [hd]

/-- C2, as amended.  In every state reached from a construction without a user
edit, the fresh instance among them, `onPaste` with an event whose
`detail.data.textContent` is the string `t` returns normally, and
`save(render())` then returns the record whose `code` is `t` with newlines
normalized; it is `{code: t}` whenever `t` has no carriage return. -/
theorem C2_paste_then_save_normalized (arg event detail content : JSVal) (t : String)
    (d : Document) (tool : CodeTool) (d0 : Document) (actions : List Action)
    (hnew : CodeTool.constructor arg d = (.ok tool, d0))
    (hno : ∀ a ∈ actions, a.isUserInput = false)
    (h1 : event.get "detail" = .ok detail) (h2 : detail.get "data" = .ok content)
    (h3 : content.get "textContent" = .ok (.str t)) :
    ((run (tool, d0) actions).1.onPaste (run (tool, d0) actions).2 event).1 = .ok () ∧
    saved (step (run (tool, d0) actions) (.onPaste event)) =
      .ok (.obj [("code", .str (normalizeNewlines t))]) ∧
    ('\r' ∉ t.data →
      saved (step (run (tool, d0) actions) (.onPaste event)) =
        .ok (.obj [("code", .str t)])) := by
  obtain ⟨e1, -, e3⟩ := write_then_save arg d tool d0 actions (.str t) t hnew rfl
  have hp := onPaste_ok (run (tool, d0) actions).1 (run (tool, d0) actions).2 event detail
    content (.str t) h1 h2 h3
  have hsv : saved (step (run (tool, d0) actions) (.onPaste event)) =
      .ok (.obj [("code", .str (normalizeNewlines t))]) := by
    simp only [step, hp, e1]
    exact e3 hno
  refine ⟨by rw [hp, e1], hsv, fun hcr => ?_⟩
  rw [hsv, normalizeNewlines_of_no_cr t hcr]

/-- C2 at the spec's example: after pasting `print(1)` into a fresh instance,
`save(render())` returns `{code: "print(1)"}`. -/
theorem C2_paste_then_save_normalized_witness :
    CodeTool.constructor (hostArg (.obj [("code", .str "x")]) (.obj [])) ⟨[]⟩ =
      (.ok (hostTool (.obj [("code", .str "x")]) (.str "Enter code")),
       hostDocument (hostSurface "x" "Enter code" "x" false)) ∧
    saved (step (run (hostTool (.obj [("code", .str "x")]) (.str "Enter code"),
        hostDocument (hostSurface "x" "Enter code" "x" false)) [])
      (.onPaste (pasteEvent (.str "print(1)")))) = .ok (.obj [("code", .str "print(1)")]) :=
  ⟨rfl,
   (C2_paste_then_save_normalized (hostArg (.obj [("code", .str "x")]) (.obj []))
      (pasteEvent (.str "print(1)")) (.obj [("data", .obj [("textContent", .str "print(1)")])])
      (.obj [("textContent", .str "print(1)")]) "print(1)" ⟨[]⟩
      (hostTool (.obj [("code", .str "x")]) (.str "Enter code"))
      (hostDocument (hostSurface "x" "Enter code" "x" false)) [] rfl (by decide)
      rfl rfl rfl).2.2 (by decide)⟩

/-- C2 as stated fails: pasting the text `CR` into a fresh instance makes
`save(render())` return `{code: LF}`, not the pasted text. -/
theorem C2_counterexample :
    CodeTool.constructor (hostArg (.obj []) (.obj [])) ⟨[]⟩ =
      (.ok (hostTool (.obj [("code", .str "")]) (.str "Enter code")),
       hostDocument (hostSurface "" "Enter code" "" false)) ∧
    saved ((hostTool (.obj [("code", .str "")]) (.str "Enter code")).onPaste
      (hostDocument (hostSurface "" "Enter code" "" false)) (pasteEvent (.str "\r"))).2 =
      .ok (.obj [("code", .str "\n")]) ∧
    saved ((hostTool (.obj [("code", .str "")]) (.str "Enter code")).onPaste
      (hostDocument (hostSurface "" "Enter code" "" false)) (pasteEvent (.str "\r"))).2 ≠
      .ok (.obj [("code", .str "\r")]) := by
  refine ⟨rfl, rfl, ?_⟩
  intro h
  have h2 : saved ((hostTool (.obj [("code", .str "")]) (.str "Enter code")).onPaste
      (hostDocument (hostSurface "" "Enter code" "" false)) (pasteEvent (.str "\r"))).2 =
      .ok (.obj [("code", .str "\n")]) := rfl
  rw [h2] at h
  simp at h

/-- C3, as amended.  In every state reached from a construction by user edits,
setter calls, pastes, `render` and `save` calls, assigning `{code: s}` through
the setter returns normally, stores `{code: s}` and leaves the child text of the
text surface exactly `s`.  When no user edit came before, `save(render())` then
returns `{code: s}` with newlines normalized, which is the stored record
whenever `s` has no carriage return. -/
theorem C3_setter_syncs_surface (arg : JSVal) (d : Document) (tool : CodeTool) (d0 : Document)
    (actions : List Action) (s : String)
    (hnew : CodeTool.constructor arg d = (.ok tool, d0)) :
    ((run (tool, d0) actions).1.setData (run (tool, d0) actions).2
        (.obj [("code", .str s)])).1 = .ok () ∧
    (step (run (tool, d0) actions) (.setData (.obj [("code", .str s)]))).1.data =
      .obj [("code", .str s)] ∧
    (step (run (tool, d0) actions) (.setData (.obj [("code", .str s)]))).1.nodes.textarea =
      some (d.nodes.length + 1) ∧
    (step (run (tool, d0) actions) (.setData (.obj [("code", .str s)]))).2.textContent
      (d.nodes.length + 1) = some s ∧
    ((∀ a ∈ actions, a.isUserInput = false) →
      saved (step (run (tool, d0) actions) (.setData (.obj [("code", .str s)]))) =
        .ok (.obj [("code", .str (normalizeNewlines s))]) ∧
      ('\r' ∉ s.data →
        saved (step (run (tool, d0) actions) (.setData (.obj [("code", .str s)]))) =
          .ok (.obj [("code", .str s)]))) := by
  obtain ⟨hn, -, -⟩ := run_mounted arg d tool d0 actions hnew
  obtain ⟨e1, e2, e3⟩ := write_then_save arg d tool d0 actions (.str s) s hnew rfl
  have hstep : step (run (tool, d0) actions) (.setData (.obj [("code", .str s)])) =
      ({ (run (tool, d0) actions).1 with _data := .obj [("code", .str s)] },
        (run (tool, d0) actions).2.setTextContent (d.nodes.length + 1) s) := by
    simp only [step, e1]
  rw [hstep, e1]
  refine ⟨rfl, rfl, by simp only [hn], e2, fun hno => ?_⟩
  have hsv := e3 hno
  refine ⟨hsv, fun hcr => ?_⟩
  rw [hsv]
  exact congrArg (fun x => Except.ok (JSVal.obj [("code", JSVal.str x)]))
    (normalizeNewlines_of_no_cr s hcr)

/-- C3 after a construction with the code `a` and a paste of `b`: assigning
`{code: "c"}` makes `save(render())` return `{code: "c"}`. -/
theorem C3_setter_syncs_surface_witness :
    CodeTool.constructor (hostArg (.obj [("code", .str "a")]) (.obj [])) ⟨[]⟩ =
      (.ok (hostTool (.obj [("code", .str "a")]) (.str "Enter code")),
       hostDocument (hostSurface "a" "Enter code" "a" false)) ∧
    (∀ a ∈ [Action.onPaste (pasteEvent (.str "b")), Action.render], a.isUserInput = false) ∧
    saved (step (run (hostTool (.obj [("code", .str "a")]) (.str "Enter code"),
        hostDocument (hostSurface "a" "Enter code" "a" false))
        [Action.onPaste (pasteEvent (.str "b")), Action.render])
        (.setData (.obj [("code", .str "c")]))) = .ok (.obj [("code", .str "c")]) :=
  ⟨rfl, by decide,
   ((C3_setter_syncs_surface (hostArg (.obj [("code", .str "a")]) (.obj [])) ⟨[]⟩
      (hostTool (.obj [("code", .str "a")]) (.str "Enter code"))
      (hostDocument (hostSurface "a" "Enter code" "a" false))
      [Action.onPaste (pasteEvent (.str "b")), Action.render] "c" rfl).2.2.2.2
        (by decide)).2 (by decide)⟩

/-- C3 as stated fails twice.  After the user has typed `x`, assigning
`{code: "y"}` stores `{code: "y"}` while `save(render())` still returns
`{code: "x"}`: the view differs from the store although the write came last.
And on a fresh instance, assigning `{code: CR}` makes `save(render())` return
`{code: LF}`. -/
theorem C3_counterexample :
    CodeTool.constructor (hostArg (.obj []) (.obj [])) ⟨[]⟩ =
      (.ok (hostTool (.obj [("code", .str "")]) (.str "Enter code")),
       hostDocument (hostSurface "" "Enter code" "" false)) ∧
    (run (hostTool (.obj [("code", .str "")]) (.str "Enter code"),
        hostDocument (hostSurface "" "Enter code" "" false))
      [.userInput "x", .setData (.obj [("code", .str "y")])]).1.data.get "code" =
      .ok (.str "y") ∧
    saved (run (hostTool (.obj [("code", .str "")]) (.str "Enter code"),
        hostDocument (hostSurface "" "Enter code" "" false))
      [.userInput "x", .setData (.obj [("code", .str "y")])]) =
      .ok (.obj [("code", .str "x")]) ∧
    saved (run (hostTool (.obj [("code", .str "")]) (.str "Enter code"),
        hostDocument (hostSurface "" "Enter code" "" false))
      [.userInput "x", .setData (.obj [("code", .str "y")])]) ≠
      .ok (.obj [("code", .str "y")]) ∧
    saved (run (hostTool (.obj [("code", .str "")]) (.str "Enter code"),
        hostDocument (hostSurface "" "Enter code" "" false))
      [.setData (.obj [("code", .str "\r")])]) = .ok (.obj [("code", .str "\n")]) := by
  refine ⟨rfl, rfl, rfl, ?_, rfl⟩
  intro h
  have h2 : saved (run (hostTool (.obj [("code", .str "")]) (.str "Enter code"),
        hostDocument (hostSurface "" "Enter code" "" false))
      [.userInput "x", .setData (.obj [("code", .str "y")])]) =
      .ok (.obj [("code", .str "x")]) := rfl
  rw [h2] at h
  simp at h

/-- C4.  In every state reached from a construction, after the user edits the
mounted surface directly, leaving the text `u` in it, the surface's current text
(what its `value` reads) is `u` with newlines normalized, so `u` itself when it
has no carriage return, and `save(render())` returns exactly that text as
`code`; the `data` getter returns what it returned before the edit, also after
the `save`. -/
theorem C4_save_reads_live_surface (arg : JSVal) (d : Document) (tool : CodeTool)
    (d0 : Document) (actions : List Action) (u : String)
    (hnew : CodeTool.constructor arg d = (.ok tool, d0)) :
    (step (run (tool, d0) actions) (.userInput u)).1.nodes.textarea =
      some (d.nodes.length + 1) ∧
    (step (run (tool, d0) actions) (.userInput u)).2.value (d.nodes.length + 1) =
      some (normalizeNewlines u) ∧
    saved (step (run (tool, d0) actions) (.userInput u)) =
      .ok (.obj [("code", .str (normalizeNewlines u))]) ∧
    ('\r' ∉ u.data →
      saved (step (run (tool, d0) actions) (.userInput u)) = .ok (.obj [("code", .str u)])) ∧
    (step (run (tool, d0) actions) (.userInput u)).1.data = (run (tool, d0) actions).1.data ∧
    (step (step (run (tool, d0) actions) (.userInput u))
      (.save (step (run (tool, d0) actions) (.userInput u)).1.render)).1.data =
      (run (tool, d0) actions).1.data := by
  obtain ⟨hn, ⟨cl, hw⟩, ta, hta⟩ := run_mounted arg d tool d0 actions hnew
  have hel : (run (tool, d0) actions).1.nodes.textarea = some (d.nodes.length + 1) := by
    simp only [hn]
  have hstep : step (run (tool, d0) actions) (.userInput u) =
      ((run (tool, d0) actions).1,
        (run (tool, d0) actions).2.userInput (d.nodes.length + 1) u) := by
    simp only [step, hel]
  have e2 := Document.updateTextarea_getElem?_self (run (tool, d0) actions).2
    (d.nodes.length + 1) (fun ta => { ta with rawValue := u, dirty := true }) ta hta
  have hw' := Document.updateTextarea_getElem?_div (run (tool, d0) actions).2
    (d.nodes.length + 1) d.nodes.length (fun ta => { ta with rawValue := u, dirty := true })
    cl _ hw
  have hs := saved_mounted
    ((run (tool, d0) actions).1, (run (tool, d0) actions).2.userInput (d.nodes.length + 1) u)
    d.nodes.length (d.nodes.length + 1) cl _ (by simp only [hn]) hw' e2
  have hsv : saved ((run (tool, d0) actions).1,
      (run (tool, d0) actions).2.userInput (d.nodes.length + 1) u) =
      .ok (.obj [("code", .str (normalizeNewlines u))]) := by
    unfold saved
    rw [hs]
  rw [hstep]
  refine ⟨hel, ?_, hsv, fun hcr => ?_, rfl, ?_⟩
  · simp only [Document.value, Document.userInput, e2]
  · rw [hsv, normalizeNewlines_of_no_cr u hcr]
  · simp only [step, save_snd]

/-- C4 on a fresh instance holding `a`: the user types `b`, `save(render())`
returns `{code: "b"}` and the getter still returns `{code: "a"}`. -/
theorem C4_save_reads_live_surface_witness :
    CodeTool.constructor (hostArg (.obj [("code", .str "a")]) (.obj [])) ⟨[]⟩ =
      (.ok (hostTool (.obj [("code", .str "a")]) (.str "Enter code")),
       hostDocument (hostSurface "a" "Enter code" "a" false)) ∧
    saved (step (run (hostTool (.obj [("code", .str "a")]) (.str "Enter code"),
        hostDocument (hostSurface "a" "Enter code" "a" false)) []) (.userInput "b")) =
      .ok (.obj [("code", .str "b")]) ∧
    (step (run (hostTool (.obj [("code", .str "a")]) (.str "Enter code"),
        hostDocument (hostSurface "a" "Enter code" "a" false)) []) (.userInput "b")).1.data =
      .obj [("code", .str "a")] :=
  ⟨rfl,
   (C4_save_reads_live_surface (hostArg (.obj [("code", .str "a")]) (.obj [])) ⟨[]⟩
      (hostTool (.obj [("code", .str "a")]) (.str "Enter code"))
      (hostDocument (hostSurface "a" "Enter code" "a" false)) [] "b" rfl).2.2.2.1 (by decide),
   rfl⟩

/-- C5.  In every state reached from a construction by user edits, setter calls,
pastes, `render` and `save` calls, `render()` returns the reference it returned
right after construction, the one `drawView` created first; no element has been
created since; the instance still holds the same text surface; every element
but the text surface, the wrapper with its single child among them, is as
construction left it; and the text surface keeps its classes and placeholder. -/
theorem C5_render_returns_the_built_view (arg : JSVal) (d : Document) (tool : CodeTool)
    (d0 : Document) (actions : List Action)
    (hnew : CodeTool.constructor arg d = (.ok tool, d0)) :
    tool.render = some d.nodes.length ∧
    (run (tool, d0) actions).1.render = tool.render ∧
    (run (tool, d0) actions).1.nodes.textarea = some (d.nodes.length + 1) ∧
    (run (tool, d0) actions).2.nodes.length = d0.nodes.length ∧
    (∃ cl, d0.nodes[d.nodes.length]? = some (.div cl [d.nodes.length + 1])) ∧
    (∀ r, r ≠ d.nodes.length + 1 → (run (tool, d0) actions).2.nodes[r]? = d0.nodes[r]?) ∧
    (∃ ta ta0, (run (tool, d0) actions).2.nodes[d.nodes.length + 1]? = some (.textarea ta) ∧
      d0.nodes[d.nodes.length + 1]? = some (.textarea ta0) ∧
      ta.classList = ta0.classList ∧ ta.placeholder = ta0.placeholder) := by
  obtain ⟨data', config, ph, code, cl, tcl, text, placeholder, -, -, -, -, -, -, hn, -, -, -,
    hw, ht⟩ := CodeTool.constructor_mounted arg d tool d0 hnew
  have h0 : (tool, d0).1.nodes.textarea = some (d.nodes.length + 1) := by
    simp only [hn]
  obtain ⟨k1, k2, k3, k4⟩ :=
    viewKept_run (tool, d0) actions (d.nodes.length + 1) h0 (tool, d0)
      (viewKept_refl (tool, d0) _ _ ht)
  refine ⟨by simp only [CodeTool.render, hn], ?_, ?_, k2, ⟨cl, hw⟩, k3, k4⟩
  · simp only [CodeTool.render, k1]
  · rw [k1]; exact h0

/-- C5 on an instance that is rendered, pasted into, saved and rendered again:
`render()` still returns the wrapper of construction. -/
theorem C5_render_returns_the_built_view_witness :
    CodeTool.constructor (hostArg (.obj [("code", .str "a")]) (.obj [])) ⟨[]⟩ =
      (.ok (hostTool (.obj [("code", .str "a")]) (.str "Enter code")),
       hostDocument (hostSurface "a" "Enter code" "a" false)) ∧
    (run (hostTool (.obj [("code", .str "a")]) (.str "Enter code"),
        hostDocument (hostSurface "a" "Enter code" "a" false))
      [.render, .onPaste (pasteEvent (.str "b")), .save (some 0), .render]).1.render =
      (hostTool (.obj [("code", .str "a")]) (.str "Enter code")).render :=
  ⟨rfl,
   (C5_render_returns_the_built_view (hostArg (.obj [("code", .str "a")]) (.obj [])) ⟨[]⟩
      (hostTool (.obj [("code", .str "a")]) (.str "Enter code"))
      (hostDocument (hostSurface "a" "Enter code" "a" false))
      [.render, .onPaste (pasteEvent (.str "b")), .save (some 0), .render] rfl).2.1⟩

/-- C6, as amended.  When `data` has no `code`, the text surface is empty after
construction (child text and current text) and the stored record is
`{code: ''}`.  The placeholder of the surface is `config.placeholder` when that
is a non-empty string, and is `DEFAULT_PLACEHOLDER`, the string `Enter code`,
when `config.placeholder` is omitted or is the empty string. -/
theorem C6_defaults_at_construction (arg data config : JSVal) (d : Document) (tool : CodeTool)
    (d0 : Document)
    (hdata : arg.get "data" = .ok data) (hcode : data.get "code" = .ok .undefined)
    (hconfig : arg.get "config" = .ok config)
    (hnew : CodeTool.constructor arg d = (.ok tool, d0)) :
    tool.nodes.textarea = some (d.nodes.length + 1) ∧
    d0.textContent (d.nodes.length + 1) = some "" ∧
    d0.value (d.nodes.length + 1) = some "" ∧
    tool.data = .obj [("code", .str "")] ∧
    (∀ p, config.get "placeholder" = .ok (.str p) → p ≠ "" →
      d0.placeholder (d.nodes.length + 1) = some p) ∧
    (config.get "placeholder" = .ok .undefined →
      d0.placeholder (d.nodes.length + 1) = some CodeTool.DEFAULT_PLACEHOLDER) ∧
    (config.get "placeholder" = .ok (.str "") →
      d0.placeholder (d.nodes.length + 1) = some CodeTool.DEFAULT_PLACEHOLDER) ∧
    CodeTool.DEFAULT_PLACEHOLDER = "Enter code" := by
  obtain ⟨data', config', ph, code, cl, tcl, text, placeholder, h1, h2, h4, h8, hx, hp0, hn,
    hdt, -, -, -, ht⟩ := CodeTool.constructor_mounted arg d tool d0 hnew
  rw [hdata] at h1; cases h1
  rw [hconfig] at h2; cases h2
  rw [hcode] at h8; cases h8
  have hv : (JSVal.undefined.or (.str "")).toNullableDOMString = .ok "" := rfl
  have hv2 : JSVal.undefined.or (.str "") = .str "" := rfl
  rw [hv] at hx
  cases hx
  refine ⟨by simp only [hn], ?_, ?_, ?_, ?_, ?_, ?_, rfl⟩
  · simp only [Document.textContent, ht]
  · simp only [Document.value, ht]; rfl
  · simp only [CodeTool.data, hdt, hv2]
  · intro p hp hne
    rw [h4] at hp; cases hp
    have hq : ((JSVal.str p).or (.str CodeTool.DEFAULT_PLACEHOLDER)).toDOMString = .ok p := by
      simp [JSVal.or, JSVal.truthy, hne, JSVal.toDOMString]
    rw [hq] at hp0
    cases hp0
    simp only [Document.placeholder, ht]
  · intro hp
    rw [h4] at hp; cases hp
    have hq : (JSVal.undefined.or (.str CodeTool.DEFAULT_PLACEHOLDER)).toDOMString =
        .ok CodeTool.DEFAULT_PLACEHOLDER := rfl
    rw [hq] at hp0
    cases hp0
    simp only [Document.placeholder, ht]
  · intro hp
    rw [h4] at hp; cases hp
    have hq : ((JSVal.str "").or (.str CodeTool.DEFAULT_PLACEHOLDER)).toDOMString =
        .ok CodeTool.DEFAULT_PLACEHOLDER := rfl
    rw [hq] at hp0
    cases hp0
    simp only [Document.placeholder, ht]

/-- C6 with no `code` and the placeholder `Type here`: the surface is empty and
shows `Type here`. -/
theorem C6_defaults_at_construction_witness :
    CodeTool.constructor (hostArg (.obj []) (.obj [("placeholder", .str "Type here")])) ⟨[]⟩ =
      (.ok (hostTool (.obj [("code", .str "")]) (.str "Type here")),
       hostDocument (hostSurface "" "Type here" "" false)) ∧
    (hostDocument (hostSurface "" "Type here" "" false)).textContent 1 = some "" ∧
    (hostDocument (hostSurface "" "Type here" "" false)).placeholder 1 = some "Type here" :=
  ⟨rfl,
   (C6_defaults_at_construction (hostArg (.obj []) (.obj [("placeholder", .str "Type here")]))
      (.obj []) (.obj [("placeholder", .str "Type here")]) ⟨[]⟩
      (hostTool (.obj [("code", .str "")]) (.str "Type here"))
      (hostDocument (hostSurface "" "Type here" "" false)) rfl rfl rfl rfl).2.1,
   (C6_defaults_at_construction (hostArg (.obj []) (.obj [("placeholder", .str "Type here")]))
      (.obj []) (.obj [("placeholder", .str "Type here")]) ⟨[]⟩
      (hostTool (.obj [("code", .str "")]) (.str "Type here"))
      (hostDocument (hostSurface "" "Type here" "" false)) rfl rfl rfl rfl).2.2.2.2.1
      "Type here" rfl (by decide)⟩

/-- C6 as stated fails: a config that supplies the empty string as placeholder
gets the placeholder `Enter code`, not the one it supplied. -/
theorem C6_counterexample :
    (JSVal.obj [("placeholder", .str "")]).get "placeholder" = .ok (.str "") ∧
    CodeTool.constructor (hostArg (.obj []) (.obj [("placeholder", .str "")])) ⟨[]⟩ =
      (.ok (hostTool (.obj [("code", .str "")]) (.str "Enter code")),
       hostDocument (hostSurface "" "Enter code" "" false)) ∧
    (hostDocument (hostSurface "" "Enter code" "" false)).placeholder 1 = some "Enter code" ∧
    (hostDocument (hostSurface "" "Enter code" "" false)).placeholder 1 ≠ some "" := by
  refine ⟨rfl, rfl, rfl, ?_⟩
  decide

theorem get_undefined (k : String) : JSVal.undefined.get k = .error .typeError := rfl

theorem get_null (k : String) : JSVal.null.get k = .error .typeError := rfl

theorem get_error (v : JSVal) (k : String) (e : JSErr) (h : v.get k = .error e) :
    e = .typeError ∧ (v = .undefined ∨ v = .null) := by
  cases v <;> simp [JSVal.get] at h <;> simp [h]

/-- C7, as amended.  In every state reached from a construction, `onPaste`
throws a `TypeError` to its caller, leaving the instance and the document as
they were, when `event`, `event.detail` or `event.detail.data` is `undefined` or
`null`.  When `event.detail.data` is there but has no `textContent`, `onPaste`
does not throw: it returns normally, stores `{code: undefined}` and empties the
child text of the surface. -/
theorem C7_paste_faults_only_without_data (arg : JSVal) (d : Document) (tool : CodeTool)
    (d0 : Document) (actions : List Action) (event : JSVal)
    (hnew : CodeTool.constructor arg d = (.ok tool, d0)) :
    ((event = .undefined ∨ event = .null ∨
      (∃ detail, event.get "detail" = .ok detail ∧ (detail = .undefined ∨ detail = .null)) ∨
      (∃ detail content, event.get "detail" = .ok detail ∧ detail.get "data" = .ok content ∧
        (content = .undefined ∨ content = .null))) →
      (run (tool, d0) actions).1.onPaste (run (tool, d0) actions).2 event =
        (.error .typeError, (run (tool, d0) actions).1, (run (tool, d0) actions).2)) ∧
    (∀ detail content, event.get "detail" = .ok detail → detail.get "data" = .ok content →
      content.get "textContent" = .ok .undefined →
      ((run (tool, d0) actions).1.onPaste (run (tool, d0) actions).2 event).1 = .ok () ∧
      (step (run (tool, d0) actions) (.onPaste event)).1.data = .obj [("code", .undefined)] ∧
      (step (run (tool, d0) actions) (.onPaste event)).2.textContent (d.nodes.length + 1) =
        some "") := by
  obtain ⟨hn, -, ta, hta⟩ := run_mounted arg d tool d0 actions hnew
  have hel : (run (tool, d0) actions).1.nodes.textarea = some (d.nodes.length + 1) := by
    simp only [hn]
  refine ⟨?_, ?_⟩
  · intro h
    rcases h with h | h | ⟨detail, h1, h⟩ | ⟨detail, content, h1, h2, h⟩
    · subst h; rfl
    · subst h; rfl
    · rcases h with h | h <;> subst h <;> simp only [CodeTool.onPaste, h1, get_undefined, get_null]
    · rcases h with h | h <;> subst h <;>
        simp only [CodeTool.onPaste, h1, h2, get_undefined, get_null]
  · intro detail content h1 h2 h3
    obtain ⟨e1, e2⟩ := setData_code (run (tool, d0) actions).1 (run (tool, d0) actions).2
      .undefined "" _ _ hel hta rfl
    have hp := onPaste_ok (run (tool, d0) actions).1 (run (tool, d0) actions).2 event detail
      content .undefined h1 h2 h3
    refine ⟨by rw [hp, e1], ?_, ?_⟩
    · simp only [step, hp, e1, CodeTool.data]
    · simp only [step, hp, e1, Document.textContent, e2]

/-- C7 on a fresh instance: a paste event with no `detail.data` makes `onPaste`
throw and changes nothing. -/
theorem C7_paste_faults_only_without_data_witness :
    CodeTool.constructor (hostArg (.obj [("code", .str "x")]) (.obj [])) ⟨[]⟩ =
      (.ok (hostTool (.obj [("code", .str "x")]) (.str "Enter code")),
       hostDocument (hostSurface "x" "Enter code" "x" false)) ∧
    (hostTool (.obj [("code", .str "x")]) (.str "Enter code")).onPaste
        (hostDocument (hostSurface "x" "Enter code" "x" false)) (.obj [("detail", .obj [])]) =
      (.error .typeError, hostTool (.obj [("code", .str "x")]) (.str "Enter code"),
       hostDocument (hostSurface "x" "Enter code" "x" false)) :=
  ⟨rfl,
   (C7_paste_faults_only_without_data (hostArg (.obj [("code", .str "x")]) (.obj [])) ⟨[]⟩
      (hostTool (.obj [("code", .str "x")]) (.str "Enter code"))
      (hostDocument (hostSurface "x" "Enter code" "x" false)) []
      (.obj [("detail", .obj [])]) rfl).1
      (Or.inr (Or.inr (Or.inr ⟨.obj [], .undefined, rfl, rfl, Or.inl rfl⟩)))⟩

/-- C7 as stated fails: on an instance holding `x`, a paste event whose
`detail.data` is a record without `textContent` does not make `onPaste` throw;
the stored record becomes `{code: undefined}` and the child text of the surface
becomes empty. -/
theorem C7_counterexample :
    CodeTool.constructor (hostArg (.obj [("code", .str "x")]) (.obj [])) ⟨[]⟩ =
      (.ok (hostTool (.obj [("code", .str "x")]) (.str "Enter code")),
       hostDocument (hostSurface "x" "Enter code" "x" false)) ∧
    (JSVal.obj []).get "textContent" = .ok .undefined ∧
    (hostTool (.obj [("code", .str "x")]) (.str "Enter code")).onPaste
        (hostDocument (hostSurface "x" "Enter code" "x" false))
        (.obj [("detail", .obj [("data", .obj [])])]) =
      (.ok (), hostTool (.obj [("code", .undefined)]) (.str "Enter code"),
       hostDocument (hostSurface "" "Enter code" "" false)) ∧
    (hostDocument (hostSurface "x" "Enter code" "x" false)).textContent 1 = some "x" ∧
    (hostDocument (hostSurface "" "Enter code" "" false)).textContent 1 = some "" :=
  ⟨rfl, rfl, rfl, rfl, rfl⟩

theorem get_ok_of_get_ok (v : JSVal) (k k' : String) (x : JSVal) (h : v.get k = .ok x) :
    ∃ y, v.get k' = .ok y := by
  cases v <;> simp [JSVal.get] at h ⊢

theorem validateTokens_pair (a b : String) (ha : validateToken a = .ok ())
    (hb : validateToken b = .ok ()) : validateTokens [a, b] = .ok () := by
  simp only [validateTokens, ha, hb]

/-- The string conversion of a value that is no record with an own `toString`
succeeds. -/
theorem toDOMString_of_plain (v : JSVal) (h : v.hasOwnToString = false) :
    ∃ s, v.toDOMString = .ok s := by
  cases v with
  | bool b => cases b <;> exact ⟨_, rfl⟩
  | obj fields => exact ⟨"[object Object]", by simp [JSVal.toDOMString, h]⟩
  | _ => exact ⟨_, rfl⟩

theorem toNullableDOMString_of_plain (v : JSVal) (h : v.hasOwnToString = false) :
    ∃ s, v.toNullableDOMString = .ok s := by
  cases v with
  | undefined => exact ⟨"", rfl⟩
  | null => exact ⟨"", rfl⟩
  | bool b => exact toDOMString_of_plain (.bool b) h
  | num n hn => exact toDOMString_of_plain (.num n hn) h
  | str s => exact toDOMString_of_plain (.str s) h
  | obj fields => exact toDOMString_of_plain (.obj fields) h

/-- The string conversion of a record with an own `toString` throws. -/
theorem toDOMString_of_own (v : JSVal) (h : v.hasOwnToString = true) :
    v.toDOMString = .error .typeError ∧ v.toNullableDOMString = .error .typeError := by
  cases v with
  | obj fields => simp [JSVal.toNullableDOMString, JSVal.toDOMString, h]
  | _ => simp [JSVal.hasOwnToString] at h

theorem truthy_of_own (v : JSVal) (h : v.hasOwnToString = true) : v.truthy = true := by
  cases v with
  | obj fields => rfl
  | _ => simp [JSVal.hasOwnToString] at h

theorem or_of_truthy (v w : JSVal) (h : v.truthy = true) : v.or w = v := by
  simp [JSVal.or, h]

theorem or_of_falsy (v w : JSVal) (h : v.truthy = false) : v.or w = w := by
  simp [JSVal.or, h]

theorem hasOwnToString_or (v : JSVal) (s : String) :
    (v.or (.str s)).hasOwnToString = v.hasOwnToString := by
  cases hv : v.truthy with
  | true => simp [JSVal.or, hv]
  | false =>
    have : v.hasOwnToString = false := by
      cases ho : v.hasOwnToString with
      | false => rfl
      | true => rw [truthy_of_own v ho] at hv; cases hv
    rw [or_of_falsy v (.str s) hv, this]
    rfl

namespace CodeTool

/-- Method `drawView` throws when the code it is to show does not convert to a
string. -/
theorem drawView_throw_text (self : CodeTool) (d : Document) (code : JSVal)
    (baseClass input : String) (e : JSErr)
    (hb : self.CSS.baseClass.toDOMString = .ok baseClass)
    (hi : self.CSS.input.toDOMString = .ok input)
    (hw : validateTokens [baseClass, self.CSS.wrapper] = .ok ())
    (ht : validateTokens [self.CSS.textarea, input] = .ok ())
    (hc : self._data.get "code" = .ok code)
    (hx : code.toNullableDOMString = .error e) :
    (self.drawView d).1 = .error e := by
  unfold drawView
  simp only [Document.createElement, List.append_assoc, List.singleton_append, List.length_append,
    List.length_singleton, hb, hi]
  rw [Document.classListAdd_pair_fst _ _ _ _ hw]
  simp only []
  rw [Document.classListAdd_pair_snd _ _ _ _ ht]
  simp only [CodeTool.data, hc, hx]

/-- Method `drawView` throws when the placeholder does not convert to a
string. -/
theorem drawView_throw_placeholder (self : CodeTool) (d : Document) (code : JSVal)
    (baseClass input text : String) (e : JSErr)
    (hb : self.CSS.baseClass.toDOMString = .ok baseClass)
    (hi : self.CSS.input.toDOMString = .ok input)
    (hw : validateTokens [baseClass, self.CSS.wrapper] = .ok ())
    (ht : validateTokens [self.CSS.textarea, input] = .ok ())
    (hc : self._data.get "code" = .ok code)
    (hx : code.toNullableDOMString = .ok text)
    (hp : self.placeholder.toDOMString = .error e) :
    (self.drawView d).1 = .error e := by
  unfold drawView
  simp only [Document.createElement, List.append_assoc, List.singleton_append, List.length_append,
    List.length_singleton, hb, hi]
  rw [Document.classListAdd_pair_fst _ _ _ _ hw]
  simp only []
  rw [Document.classListAdd_pair_snd _ _ _ _ ht]
  simp only [CodeTool.data, hc, hx, hp]

/-- The constructor throws a `TypeError` when the code or the placeholder it is
to show is a record with an own `toString`, everything else being in order. -/
theorem constructor_throws (arg data config api ph styles block input code : JSVal)
    (baseClass inputClass : String) (d : Document)
    (h1 : arg.get "data" = .ok data) (h2 : arg.get "config" = .ok config)
    (h3 : arg.get "api" = .ok api) (h4 : config.get "placeholder" = .ok ph)
    (h5 : api.get "styles" = .ok styles) (h6 : styles.get "block" = .ok block)
    (h7 : styles.get "input" = .ok input) (h8 : data.get "code" = .ok code)
    (hb : block.toDOMString = .ok baseClass) (hi : input.toDOMString = .ok inputClass)
    (hw : validateTokens [baseClass, "ce-code"] = .ok ())
    (ht : validateTokens ["ce-code__textarea", inputClass] = .ok ())
    (hown : code.hasOwnToString = true ∨ ph.hasOwnToString = true) :
    (CodeTool.constructor arg d).1 = .error .typeError := by
  have hdv : ∀ self : CodeTool, self.CSS.baseClass = block → self.CSS.input = input →
      self.CSS.wrapper = "ce-code" → self.CSS.textarea = "ce-code__textarea" →
      self._data = .obj [("code", code.or (.str ""))] →
      self.placeholder = ph.or (.str DEFAULT_PLACEHOLDER) →
      (self.drawView d).1 = .error .typeError := by
    intro self e1 e2 e3 e4 e5 e6
    cases hc : code.hasOwnToString with
    | true =>
      have hx := (toDOMString_of_own _
        ((hasOwnToString_or code "").trans hc)).2
      exact drawView_throw_text self d (code.or (.str "")) baseClass inputClass _
        (by rw [e1]; exact hb) (by rw [e2]; exact hi) (by rw [e3]; exact hw)
        (by rw [e4]; exact ht) (by rw [e5]; exact get_code_record _) hx
    | false =>
      have hp : ph.hasOwnToString = true := by
        rcases hown with h | h
        · rw [hc] at h; cases h
        · exact h
      obtain ⟨text, hx⟩ := toNullableDOMString_of_plain (code.or (.str ""))
        ((hasOwnToString_or code "").trans hc)
      have hpe := (toDOMString_of_own _
        ((hasOwnToString_or ph DEFAULT_PLACEHOLDER).trans hp)).1
      exact drawView_throw_placeholder self d (code.or (.str "")) baseClass inputClass text _
        (by rw [e1]; exact hb) (by rw [e2]; exact hi) (by rw [e3]; exact hw)
        (by rw [e4]; exact ht) (by rw [e5]; exact get_code_record _) hx
        (by rw [e6]; exact hpe)
  unfold CodeTool.constructor
  simp only [h1, h2, h3, h4, h5, h6, h7, h8, setData]
  have := hdv
    { api := api, placeholder := ph.or (.str DEFAULT_PLACEHOLDER),
      CSS := { baseClass := block, input := input, wrapper := "ce-code",
               textarea := "ce-code__textarea" },
      nodes := { holder := none, textarea := none },
      _data := .obj [("code", code.or (.str ""))] } rfl rfl rfl rfl rfl rfl
  split
  · rename_i e x d2 heq
    rw [heq] at this
    simpa using this
  · rename_i holder self2 d2 heq
    rw [heq] at this
    cases this

end CodeTool

theorem constructed_none (arg : JSVal) (d : Document) (e : JSErr)
    (h : (CodeTool.constructor arg d).1 = .error e) : constructed arg d = none := by
  unfold constructed
  split
  · rename_i tool d0 heq
    rw [heq] at h
    cases h
  · rfl

/-- The constructor throws a `TypeError` and leaves the document alone when one
of `data`, `config` and `api` is `undefined`. -/
theorem constructor_absent (arg : JSVal) (d : Document)
    (h : arg.get "data" = .ok .undefined ∨ arg.get "config" = .ok .undefined ∨
      arg.get "api" = .ok .undefined) :
    CodeTool.constructor arg d = (.error .typeError, d) := by
  have hex : ∃ x, arg.get "data" = .ok x := by
    rcases h with h | h | h
    · exact ⟨_, h⟩
    · exact get_ok_of_get_ok arg _ _ _ h
    · exact get_ok_of_get_ok arg _ _ _ h
  obtain ⟨data, h1⟩ := hex
  obtain ⟨config, h2⟩ := get_ok_of_get_ok arg "data" "config" data h1
  obtain ⟨api, h3⟩ := get_ok_of_get_ok arg "data" "api" data h1
  unfold CodeTool.constructor
  simp only [h1, h2, h3]
  cases h4 : config.get "placeholder" with
  | error e => rw [(get_error _ _ _ h4).1]
  | ok ph =>
  simp only
  cases h5 : api.get "styles" with
  | error e => rw [(get_error _ _ _ h5).1]
  | ok styles =>
  simp only
  cases h6 : styles.get "block" with
  | error e => rw [(get_error _ _ _ h6).1]
  | ok block =>
  simp only
  cases h7 : styles.get "input" with
  | error e => rw [(get_error _ _ _ h7).1]
  | ok input =>
  simp only
  cases h8 : data.get "code" with
  | error e => rw [(get_error _ _ _ h8).1]
  | ok code =>
  exfalso
  rcases h with h | h | h
  · rw [h1] at h; cases h; simp [JSVal.get] at h8
  · rw [h2] at h; cases h; simp [JSVal.get] at h4
  · rw [h3] at h; cases h; simp [JSVal.get] at h5

/-- The constructor returns an instance when `data`, `config` and `api` are in
order and neither the code nor the placeholder is a record with an own
`toString`. -/
theorem constructor_succeeds (arg data config api ph styles block input code : JSVal)
    (baseClass inputClass : String) (d : Document)
    (h1 : arg.get "data" = .ok data) (h2 : arg.get "config" = .ok config)
    (h3 : arg.get "api" = .ok api) (h4 : config.get "placeholder" = .ok ph)
    (h5 : api.get "styles" = .ok styles) (h6 : styles.get "block" = .ok block)
    (h7 : styles.get "input" = .ok input) (h8 : data.get "code" = .ok code)
    (hb : block.toDOMString = .ok baseClass) (hi : input.toDOMString = .ok inputClass)
    (hvb : validateToken baseClass = .ok ()) (hvi : validateToken inputClass = .ok ())
    (hc : code.hasOwnToString = false) (hp : ph.hasOwnToString = false) :
    ∃ tool d0, CodeTool.constructor arg d = (.ok tool, d0) := by
  obtain ⟨text, hx⟩ := toNullableDOMString_of_plain (code.or (.str ""))
    ((hasOwnToString_or code "").trans hc)
  obtain ⟨placeholder, hpl⟩ := toDOMString_of_plain (ph.or (.str CodeTool.DEFAULT_PLACEHOLDER))
    ((hasOwnToString_or ph CodeTool.DEFAULT_PLACEHOLDER).trans hp)
  exact ⟨_, _, CodeTool.constructor_ok arg data config api ph styles block input code baseClass
    inputClass text placeholder d h1 h2 h3 h4 h5 h6 h7 h8 hb hi
    (validateTokens_pair _ _ hvb rfl) (validateTokens_pair _ _ rfl hvi) hx hpl⟩

/-- C8, as amended.  When `data`, `config` or `api` is absent from the argument,
the constructor throws (a `TypeError`): there is no instance, and the document
is as before, so no view was built.  When all three are there and `api.styles`
carries the two class tokens `block` and `input`, the constructor returns an
instance for every `data.code` and `config.placeholder`, missing or not, that is
no record with an own `toString` property; when one of the two is such a
record, the constructor throws a `TypeError` and there is no instance. -/
theorem C8_construction_fails_fast (arg : JSVal) (d : Document) :
    ((arg.get "data" = .ok .undefined ∨ arg.get "config" = .ok .undefined ∨
        arg.get "api" = .ok .undefined) →
      CodeTool.constructor arg d = (.error .typeError, d) ∧ constructed arg d = none) ∧
    (∀ (data config api styles block input code ph : JSVal) (baseClass inputClass : String),
      arg.get "data" = .ok data → arg.get "config" = .ok config → arg.get "api" = .ok api →
      data.get "code" = .ok code → config.get "placeholder" = .ok ph →
      api.get "styles" = .ok styles →
      styles.get "block" = .ok block → styles.get "input" = .ok input →
      block.toDOMString = .ok baseClass → input.toDOMString = .ok inputClass →
      validateToken baseClass = .ok () → validateToken inputClass = .ok () →
      (code.hasOwnToString = false → ph.hasOwnToString = false →
        ∃ tool d0, CodeTool.constructor arg d = (.ok tool, d0) ∧
          constructed arg d = some (tool, d0)) ∧
      (code.hasOwnToString = true ∨ ph.hasOwnToString = true →
        (CodeTool.constructor arg d).1 = .error .typeError ∧ constructed arg d = none)) := by
  refine ⟨fun h => ?_, ?_⟩
  · have hc := constructor_absent arg d h
    exact ⟨hc, by simp only [constructed, hc]⟩
  · intro data config api styles block input code ph baseClass inputClass h1 h2 h3 h8 h4 h5 h6
      h7 hb hi hvb hvi
    refine ⟨fun hc hp => ?_, fun hown => ?_⟩
    · obtain ⟨tool, d0, hk⟩ := constructor_succeeds arg data config api ph styles block input
        code baseClass inputClass d h1 h2 h3 h4 h5 h6 h7 h8 hb hi hvb hvi hc hp
      exact ⟨tool, d0, hk, by simp only [constructed, hk]⟩
    · have hk := CodeTool.constructor_throws arg data config api ph styles block input code
        baseClass inputClass d h1 h2 h3 h4 h5 h6 h7 h8 hb hi
        (validateTokens_pair _ _ hvb rfl) (validateTokens_pair _ _ rfl hvi) hown
      exact ⟨hk, constructed_none arg d _ hk⟩

/-- C8 at two arguments: without `config` the constructor throws and leaves the
empty document empty; with empty `data` and `config` records and the host's
`api` it returns an instance. -/
theorem C8_construction_fails_fast_witness :
    CodeTool.constructor (.obj [("data", .obj []), ("api", hostApi)]) ⟨[]⟩ =
      (.error .typeError, ⟨[]⟩) ∧
    (constructed (hostArg (.obj []) (.obj [])) ⟨[]⟩).isSome = true :=
  ⟨((C8_construction_fails_fast (.obj [("data", .obj []), ("api", hostApi)]) ⟨[]⟩).1
      (Or.inr (Or.inl rfl))).1,
   match ((C8_construction_fails_fast (hostArg (.obj []) (.obj [])) ⟨[]⟩).2
      (.obj []) (.obj []) hostApi
      (.obj [("block", .str "cdx-block"), ("input", .str "cdx-input")])
      (.str "cdx-block") (.str "cdx-input") .undefined .undefined "cdx-block" "cdx-input"
      rfl rfl rfl rfl rfl rfl rfl rfl rfl rfl rfl rfl).1 rfl rfl with
   | ⟨_, _, _, h⟩ => by rw [h]; rfl⟩

/-- C8 as stated fails: with `data`, `config` and `api` all there and the host's
style tokens, a `data.code` that is the record `{toString: 'x'}` makes the
constructor throw a `TypeError` when `drawView` assigns it to `textContent`;
there is no instance, and the two elements created before the throw are left
detached. -/
theorem C8_counterexample :
    (hostArg (.obj [("code", .obj [("toString", .str "x")])]) (.obj [])).get "data" =
      .ok (.obj [("code", .obj [("toString", .str "x")])]) ∧
    (hostArg (.obj [("code", .obj [("toString", .str "x")])]) (.obj [])).get "config" =
      .ok (.obj []) ∧
    (hostArg (.obj [("code", .obj [("toString", .str "x")])]) (.obj [])).get "api" =
      .ok hostApi ∧
    CodeTool.constructor (hostArg (.obj [("code", .obj [("toString", .str "x")])]) (.obj []))
        ⟨[]⟩ =
      (.error .typeError,
       ⟨[.div ["cdx-block", "ce-code"] [], .textarea (hostSurface "" "" "" false)]⟩) ∧
    constructed (hostArg (.obj [("code", .obj [("toString", .str "x")])]) (.obj [])) ⟨[]⟩ =
      none :=
  ⟨rfl, rfl, rfl, rfl, rfl⟩

/-- A search that has found an element finds the same one with more fuel. -/
theorem findFirst_fuel_mono (d : Document) (tag : Tag) (n m : Nat) (pending : List Ref)
    (el : Ref) (h : d.findFirst tag n pending = some el) (hnm : n ≤ m) :
    d.findFirst tag m pending = some el := by
  induction n generalizing m pending with
  | zero => simp [Document.findFirst] at h
  | succ n ih =>
    cases m with
    | zero => omega
    | succ m =>
      cases pending with
      | nil => simp [Document.findFirst] at h
      | cons r rest =>
        unfold Document.findFirst at h ⊢
        split
        · rename_i hr
          simp only [hr] at h
          exact ih _ _ h (by omega)
        · rename_i ta hr
          simp only [hr] at h
          split
          · rename_i ht
            simpa [ht] using h
          · rename_i ht
            simp only [ht, if_false] at h
            exact ih _ _ h (by omega)
        · rename_i cl kids hr
          simp only [hr] at h
          split
          · rename_i ht
            simpa [ht] using h
          · rename_i ht
            simp only [ht, if_false] at h
            exact ih _ _ h (by omega)

theorem toNullableDOMString_of_truthy (v : JSVal) (h : v.truthy = true) :
    v.toNullableDOMString = v.toDOMString := by
  cases v <;> simp [JSVal.truthy] at h <;> rfl

/-- C9, as amended.  With `config` and `api` in order (class tokens valid, the
placeholder no record with an own `toString`), the constructor does not
validate `data.code`, but it replaces a falsy one and rejects one that cannot
be converted to a string.  A truthy value that is no record with an own
`toString` (a non-zero number, `true`, a plain record, a non-empty string) is
accepted and stored as the record's code as it is, and the child text of the
surface is its string conversion.  A falsy value (`null`, `undefined`,
`false`, `0`, the empty string) is accepted and replaced: the stored record is
`{code: ''}` and the surface is empty.  A record with an own `toString`
property is rejected: the constructor throws a `TypeError`. -/
theorem C9_code_kept_when_truthy (arg data config api styles block input v ph : JSVal)
    (baseClass inputClass : String) (d : Document)
    (h1 : arg.get "data" = .ok data) (h2 : arg.get "config" = .ok config)
    (h3 : arg.get "api" = .ok api) (h8 : data.get "code" = .ok v)
    (h4 : config.get "placeholder" = .ok ph) (h5 : api.get "styles" = .ok styles)
    (h6 : styles.get "block" = .ok block) (h7 : styles.get "input" = .ok input)
    (hb : block.toDOMString = .ok baseClass) (hi : input.toDOMString = .ok inputClass)
    (hvb : validateToken baseClass = .ok ()) (hvi : validateToken inputClass = .ok ())
    (hp : ph.hasOwnToString = false) :
    (v.truthy = true → v.hasOwnToString = false →
      ∃ tool d0 text, CodeTool.constructor arg d = (.ok tool, d0) ∧
        v.toDOMString = .ok text ∧
        tool.data = .obj [("code", v)] ∧
        tool.nodes.textarea = some (d.nodes.length + 1) ∧
        d0.textContent (d.nodes.length + 1) = some text) ∧
    (v.truthy = false →
      ∃ tool d0, CodeTool.constructor arg d = (.ok tool, d0) ∧
        tool.data = .obj [("code", .str "")] ∧
        tool.nodes.textarea = some (d.nodes.length + 1) ∧
        d0.textContent (d.nodes.length + 1) = some "") ∧
    (v.hasOwnToString = true → (CodeTool.constructor arg d).1 = .error .typeError) := by
  have key : v.hasOwnToString = false →
      ∃ tool d0 text, CodeTool.constructor arg d = (.ok tool, d0) ∧
        (v.or (.str "")).toNullableDOMString = .ok text ∧
        tool.data = .obj [("code", v.or (.str ""))] ∧
        tool.nodes.textarea = some (d.nodes.length + 1) ∧
        d0.textContent (d.nodes.length + 1) = some text := by
    intro hc
    obtain ⟨tool, d0, hk⟩ := constructor_succeeds arg data config api ph styles block input
      v baseClass inputClass d h1 h2 h3 h4 h5 h6 h7 h8 hb hi hvb hvi hc hp
    obtain ⟨data', config', ph', code, cl, tcl, text, placeholder, g1, -, -, g8, hx, -, hn,
      hdt, -, -, -, ht⟩ := CodeTool.constructor_mounted arg d tool d0 hk
    rw [h1] at g1; cases g1
    rw [h8] at g8; cases g8
    exact ⟨tool, d0, text, hk, hx, hdt, by simp only [hn],
      by simp only [Document.textContent, ht]⟩
  refine ⟨fun hv hc => ?_, fun hv => ?_, fun hown => ?_⟩
  · obtain ⟨tool, d0, text, hk, hx, hdt, hn, ht⟩ := key hc
    rw [or_of_truthy v _ hv] at hx hdt
    rw [toNullableDOMString_of_truthy v hv] at hx
    exact ⟨tool, d0, text, hk, hx, hdt, hn, ht⟩
  · have hc : v.hasOwnToString = false := by
      cases ho : v.hasOwnToString with
      | false => rfl
      | true => rw [truthy_of_own v ho] at hv; cases hv
    obtain ⟨tool, d0, text, hk, hx, hdt, hn, ht⟩ := key hc
    rw [or_of_falsy v _ hv] at hx hdt
    have he : (JSVal.str "").toNullableDOMString = .ok "" := rfl
    rw [he] at hx
    cases hx
    exact ⟨tool, d0, hk, hdt, hn, ht⟩
  · exact CodeTool.constructor_throws arg data config api ph styles block input v
      baseClass inputClass d h1 h2 h3 h4 h5 h6 h7 h8 hb hi
      (validateTokens_pair _ _ hvb rfl) (validateTokens_pair _ _ rfl hvi) (Or.inl hown)

/-- C9 at the code `true`: the constructor accepts it, stores it as it is and
the surface shows the text `true`. -/
theorem C9_code_kept_when_truthy_witness :
    CodeTool.constructor (hostArg (.obj [("code", .bool true)]) (.obj [])) ⟨[]⟩ =
      (.ok (hostTool (.obj [("code", .bool true)]) (.str "Enter code")),
       hostDocument (hostSurface "true" "Enter code" "true" false)) ∧
    (hostTool (.obj [("code", .bool true)]) (.str "Enter code")).data =
      .obj [("code", .bool true)] ∧
    (hostDocument (hostSurface "true" "Enter code" "true" false)).textContent 1 =
      some "true" :=
  match (C9_code_kept_when_truthy (hostArg (.obj [("code", .bool true)]) (.obj []))
      (.obj [("code", .bool true)]) (.obj []) hostApi
      (.obj [("block", .str "cdx-block"), ("input", .str "cdx-input")])
      (.str "cdx-block") (.str "cdx-input") (.bool true) .undefined "cdx-block" "cdx-input"
      ⟨[]⟩ rfl rfl rfl rfl rfl rfl rfl rfl rfl rfl rfl rfl rfl).1 rfl rfl with
  | ⟨tool, d0, text, hk, hx, hdt, _, ht⟩ => by
    have e : CodeTool.constructor (hostArg (.obj [("code", .bool true)]) (.obj [])) ⟨[]⟩ =
        (.ok (hostTool (.obj [("code", .bool true)]) (.str "Enter code")),
         hostDocument (hostSurface "true" "Enter code" "true" false)) := rfl
    rw [e] at hk
    simp only [Prod.mk.injEq, Except.ok.injEq] at hk
    obtain ⟨k1, k2⟩ := hk
    subst k1
    subst k2
    cases hx
    exact ⟨e, hdt, ht⟩

/-- C9 as stated fails twice: with `null` as `data.code`, the stored record is
`{code: ''}`, so the value was replaced and is not the record's code; and with
the record `{toString: true}` as `data.code` the constructor throws a
`TypeError`, so the value was rejected. -/
theorem C9_counterexample :
    CodeTool.constructor (hostArg (.obj [("code", .null)]) (.obj [])) ⟨[]⟩ =
      (.ok (hostTool (.obj [("code", .str "")]) (.str "Enter code")),
       hostDocument (hostSurface "" "Enter code" "" false)) ∧
    (hostTool (.obj [("code", .str "")]) (.str "Enter code")).data.get "code" =
      .ok (.str "") ∧
    (hostTool (.obj [("code", .str "")]) (.str "Enter code")).data.get "code" ≠
      .ok .null ∧
    (CodeTool.constructor (hostArg (.obj [("code", .obj [("toString", .bool true)])])
      (.obj [])) ⟨[]⟩).1 = .error .typeError := by
  refine ⟨rfl, rfl, ?_, rfl⟩
  intro h
  have h2 : (hostTool (.obj [("code", .str "")]) (.str "Enter code")).data.get "code" =
      .ok (.str "") := rfl
  rw [h2] at h
  cases h

/-- C10.  For two instances `a` and `b` in any states and any element `w` below
which `querySelector('textarea')` finds a text surface, `a.save(w)` and
`b.save(w)` return the same record, whose `code` is the current text of that
surface, and each call leaves the instance and the document, `w` included, as
they were.  The surface found is the one a search with any larger fuel finds. -/
theorem C10_save_depends_only_on_wrapper (a b : CodeTool) (d : Document) (w el : Ref)
    (h : d.querySelector w .textarea = some el) :
    (∃ text, d.value el = some text ∧
      a.save d (some w) = (.ok (.obj [("code", .str text)]), a, d) ∧
      b.save d (some w) = (.ok (.obj [("code", .str text)]), b, d)) ∧
    (∀ cl kids fuel, d.nodes[w]? = some (.div cl kids) → d.nodes.length + 1 ≤ fuel →
      d.findFirst .textarea fuel kids = some el) := by
  obtain ⟨ta, hta⟩ := Document.querySelector_textarea d w el h
  refine ⟨⟨normalizeNewlines ta.rawValue, ?_, ?_, ?_⟩, ?_⟩
  · simp only [Document.value, hta]
  · simp only [CodeTool.save, h, Document.value, hta]
  · simp only [CodeTool.save, h, Document.value, hta]
  · intro cl kids fuel hw hf
    simp only [Document.querySelector, hw] at h
    exact findFirst_fuel_mono d .textarea _ fuel kids el h hf

/-- C10 with a wrapper that is not the holder of the instance: the surface sits
two levels below the element `2`, and `save` reads its text. -/
theorem C10_save_depends_only_on_wrapper_witness :
    Document.querySelector
      ⟨[.div [] [1], .textarea (hostSurface "a" "" "b" true), .div [] [3, 0], .div [] []]⟩ 2
      .textarea = some 1 ∧
    (hostTool (.obj [("code", .str "x")]) (.str "Enter code")).save
      ⟨[.div [] [1], .textarea (hostSurface "a" "" "b" true), .div [] [3, 0], .div [] []]⟩
      (some 2) =
      (.ok (.obj [("code", .str "b")]), hostTool (.obj [("code", .str "x")]) (.str "Enter code"),
       ⟨[.div [] [1], .textarea (hostSurface "a" "" "b" true), .div [] [3, 0], .div [] []]⟩) :=
  ⟨rfl,
   match C10_save_depends_only_on_wrapper
      (hostTool (.obj [("code", .str "x")]) (.str "Enter code"))
      (hostTool (.obj [("code", .str "y")]) (.str "Other"))
      ⟨[.div [] [1], .textarea (hostSurface "a" "" "b" true), .div [] [3, 0], .div [] []]⟩
      2 1 rfl with
   | ⟨⟨_, hv, ha, _⟩, _⟩ => by
     have e : (Document.value
        ⟨[.div [] [1], .textarea (hostSurface "a" "" "b" true), .div [] [3, 0], .div [] []]⟩
        1) = some "b" := rfl
     rw [e] at hv
     cases hv
     exact ha⟩

end CodeBlock
